import Mathlib

/-!
Verification development for the ktop refresh-and-aggregation layer.

The definitions below are a shallow embedding of the Go sources:
  - views/model pod model code (pod view models, status summary, sorting),
  - k8s/pods_controller.go (GetPodList, GetPodModels, refreshPods, peak tracking),
  - k8s/client_controller.go (controller state, peak maps),
  - application/app_ctrl.go (the capacity-1 redraw notification channel).

Modelling conventions:
  - resource.Quantity values are modelled as exact integers (Int). The source
    only builds quantities with NewQuantity(int64, DecimalSI), adds them with
    Add, compares them with Cmp, and reads them back with Value and MilliValue;
    for integer-valued quantities inside the int64 range these operations are
    exact integer arithmetic. MilliValue is modelled as multiplication by 1000.
  - Go integer arithmetic on 64-bit int values wraps; where the source performs
    arithmetic whose result feeds a comparison (the sort comparators), the wrap
    is modelled explicitly with wrap64.
  - Nil pointers of type *resource.Quantity are modelled as Option Int with
    none for nil.
  - The AGE and READY sort branches of SortPodModels compare float64 values
    (time.Duration.Seconds differences truncated to int, and ready ratios via
    math.Float64bits); floating point is outside this embedding, so those two
    fields are not modelled. The OTHER constructor covers the default branch
    of the Go switch, reached for any other sort-field string.
-/

namespace Ktop

/-- Wrap an integer into the two-complement range of a 64-bit Go int. -/
def wrap64 (n : Int) : Int := (n + 2 ^ 63) % 2 ^ 64 - 2 ^ 63

/-- Lexicographic three-way comparison of character lists. -/
def listCompare : List Char → List Char → Int
  | [], [] => 0
  | [], _ :: _ => -1
  | _ :: _, [] => 1
  | a :: as, b :: bs =>
    if a < b then -1 else if b < a then 1 else listCompare as bs

/-- strings.Compare: -1, 0 or 1 according to the lexicographic order. The Go
function compares byte-wise; this model compares the characters of the
string, which agrees on ASCII data and is in any case a total order. -/
def strCompare (a b : String) : Int := listCompare a.data b.data

/-- coreV1 ResourceList restricted to the cpu and memory entries used by the
source; an absent entry is none. -/
structure ResourceListM where
  cpu : Option Int
  mem : Option Int
deriving DecidableEq, Repr

/-- ResourceList.Cpu() never returns nil: it yields a zero quantity when the
entry is absent. -/
def ResourceListM.CpuQ (rl : ResourceListM) : Int := rl.cpu.getD 0

/-- ResourceList.Memory() never returns nil: it yields a zero quantity when the
entry is absent. -/
def ResourceListM.MemoryQ (rl : ResourceListM) : Int := rl.mem.getD 0

/-- One container of PodMetrics.Containers: its cpu and memory usage. -/
structure ContainerMetricsM where
  cpu : Int
  mem : Int
deriving DecidableEq, Repr

/-- metricsV1beta1.PodMetrics restricted to the fields the source reads. An
empty container list also models new(PodMetrics). -/
structure PodMetricsM where
  Containers : List ContainerMetricsM
deriving DecidableEq, Repr

/-- metricsV1beta1.NodeMetrics: Usage.Cpu() and Usage.Memory() never return
nil, so the two usage readings are plain integers; new(NodeMetrics) reads as
zero for both. -/
structure NodeMetricsM where
  cpu : Int
  mem : Int
deriving DecidableEq, Repr

/-- coreV1.Node restricted to Status.Allocatable. -/
structure NodeM where
  Allocatable : ResourceListM
deriving DecidableEq, Repr

/-- coreV1.ContainerState: presence of the Running field, the Waiting reason
when Waiting is present, and (Reason, Signal, ExitCode) when Terminated is
present. -/
structure ContainerStateM where
  Running : Bool
  Waiting : Option String
  Terminated : Option (String × Int × Int)
deriving DecidableEq, Repr

/-- coreV1.ContainerStatus restricted to the fields the source reads. -/
structure ContainerStatusM where
  Ready : Bool
  RestartCount : Int
  State : ContainerStateM
deriving DecidableEq, Repr

/-- coreV1.PodCondition restricted to its Type and Status strings. -/
structure PodConditionM where
  CondType : String
  CondStatus : String
deriving DecidableEq, Repr

/-- One entry of pod.Spec.Containers or pod.Spec.InitContainers, restricted to
what GetPodContainerSummary reads. Ports and VolumeMounts are kept as counts
because only their lengths are used. -/
structure ContainerSpecM where
  Requests : ResourceListM
  Limits : ResourceListM
  Ports : Nat
  VolumeMounts : Nat
deriving DecidableEq, Repr

/-- coreV1.Pod restricted to the fields the pods controller and the view-model
builder read. Volumes is the length of pod.Spec.Volumes. -/
structure PodM where
  Namespace : String
  Name : String
  NodeName : String
  PodIP : String
  Containers : List ContainerSpecM
  InitContainers : List ContainerSpecM
  Overhead : Option ResourceListM
  Volumes : Nat
  ContainerStatuses : List ContainerStatusM
  Conditions : List PodConditionM
deriving DecidableEq, Repr

/-- views/model PodModel. Quantity pointers are Option Int, nil being none. -/
structure PodModel where
  Namespace : String
  Name : String
  Status : String
  Node : String
  IP : String
  TimeSince : String
  PodRequestedCpuQty : Option Int
  PodRequestedMemQty : Option Int
  PodLimitCpuQty : Option Int
  PodLimitMemQty : Option Int
  PodUsageCpuQty : Option Int
  PodUsageMemQty : Option Int
  NodeAllocatableCpuQty : Option Int
  NodeAllocatableMemQty : Option Int
  NodeUsageCpuQty : Option Int
  NodeUsageMemQty : Option Int
  ReadyContainers : Int
  TotalContainers : Int
  Restarts : Int
  Volumes : Int
  VolMounts : Int
deriving DecidableEq, Repr

/-- views/model ContainerStatusSummary. -/
structure ContainerStatusSummary where
  Ready : Int
  Total : Int
  Restarts : Int
  Status : String
  SomeRunning : Bool
deriving DecidableEq, Repr

/-- views/model PodContainerSummary. The source returns non-nil quantity
pointers, hence the some wrappers at the construction site. -/
structure PodContainerSummary where
  RequestedMemQty : Option Int
  RequestedCpuQty : Option Int
  LimitMemQty : Option Int
  LimitCpuQty : Option Int
  VolMounts : Int
  Ports : Int
deriving DecidableEq, Repr

/-- podMetricsTotals: sum cpu and memory usage over the containers of a
PodMetrics value, starting from two zero quantities. -/
def podMetricsTotals (metrics : PodMetricsM) : Int × Int :=
  metrics.Containers.foldl (fun t c => (t.1 + c.cpu, t.2 + c.mem)) (0, 0)

/-- One iteration of the loop in getContainerStatusSummary: add the restart
count, then run the switch, whose first matching case updates the summary. -/
def containerStatusStep (summary : ContainerStatusSummary) (stat : ContainerStatusM) :
    ContainerStatusSummary :=
  let summary := { summary with Restarts := summary.Restarts + stat.RestartCount }
  if stat.Ready && stat.State.Running then
    { summary with Ready := summary.Ready + 1, Status := "Running", SomeRunning := true }
  else if (stat.State.Waiting).isSome then
    { summary with Status := (stat.State.Waiting).getD "" }
  else
    match stat.State.Terminated with
    | some (reason, signal, exitCode) =>
      if reason ≠ "" then { summary with Status := reason }
      else if signal ≠ 0 then { summary with Status := "Sig:" ++ toString signal }
      else { summary with Status := "Exit:" ++ toString exitCode }
    | none => summary

/-- getContainerStatusSummary from views/model. -/
def getContainerStatusSummary (containerStats : List ContainerStatusM) :
    ContainerStatusSummary :=
  containerStats.foldl containerStatusStep
    { Ready := 0, Total := (containerStats.length : Int), Restarts := 0,
      Status := "", SomeRunning := false }

/-- podIsReady: some condition has Type PodReady with Status ConditionTrue. -/
def podIsReady (conds : List PodConditionM) : Bool :=
  conds.any fun cond => cond.CondType == "Ready" && cond.CondStatus == "True"

/-- Accumulator of GetPodContainerSummary: the four running quantity totals
plus the port and mount counts. -/
structure CSAcc where
  requestedMems : Int
  requestedCpus : Int
  limitMems : Int
  limitCpus : Int
  ports : Int
  mounts : Int
deriving DecidableEq, Repr

/-- Per-container step of GetPodContainerSummary. The nil checks of the source
are vacuous because the ResourceList accessors never return nil. -/
def containerSumStep (acc : CSAcc) (container : ContainerSpecM) : CSAcc :=
  { requestedMems := acc.requestedMems + container.Requests.MemoryQ
    requestedCpus := acc.requestedCpus + container.Requests.CpuQ
    limitMems := acc.limitMems + container.Limits.MemoryQ
    limitCpus := acc.limitCpus + container.Limits.CpuQ
    ports := acc.ports + (container.Ports : Int)
    mounts := acc.mounts + (container.VolumeMounts : Int) }

/-- GetPodContainerSummary from views/model: fold over regular containers,
then init containers, then add the pod Overhead to both requested and limit
totals when present. -/
def GetPodContainerSummary (pod : PodM) : PodContainerSummary :=
  let acc : CSAcc :=
    { requestedMems := 0, requestedCpus := 0, limitMems := 0, limitCpus := 0,
      ports := 0, mounts := 0 }
  let acc := pod.Containers.foldl containerSumStep acc
  let acc := pod.InitContainers.foldl containerSumStep acc
  let acc :=
    match pod.Overhead with
    | some ovh =>
      { acc with
        requestedMems := acc.requestedMems + ovh.MemoryQ
        limitMems := acc.limitMems + ovh.MemoryQ
        requestedCpus := acc.requestedCpus + ovh.CpuQ
        limitCpus := acc.limitCpus + ovh.CpuQ }
    | none => acc
  { RequestedMemQty := some acc.requestedMems
    RequestedCpuQty := some acc.requestedCpus
    LimitMemQty := some acc.limitMems
    LimitCpuQty := some acc.limitCpus
    VolMounts := acc.mounts
    Ports := acc.ports }

/-- NewPodModel from views/model. The timeSinceVal argument stands for the
wall-clock dependent string timeSince(pod.CreationTimestamp). NewPodModel
leaves the two NodeAllocatable fields at their Go zero value nil; the caller
GetPodModels fills them in. -/
def NewPodModel (pod : PodM) (podMetrics : PodMetricsM) (nodeMetrics : NodeMetricsM)
    (timeSinceVal : String) : PodModel :=
  let totals := podMetricsTotals podMetrics
  let statusSummary := getContainerStatusSummary pod.ContainerStatuses
  let statusSummary :=
    if (statusSummary.Status == "" || statusSummary.Status == "Completed")
        && statusSummary.SomeRunning then
      if podIsReady pod.Conditions then { statusSummary with Status := "Running" }
      else { statusSummary with Status := "NotReady" }
    else statusSummary
  let containerSummary := GetPodContainerSummary pod
  { Namespace := pod.Namespace
    Name := pod.Name
    Status := statusSummary.Status
    TimeSince := timeSinceVal
    IP := pod.PodIP
    Node := pod.NodeName
    Volumes := (pod.Volumes : Int)
    VolMounts := containerSummary.VolMounts
    PodRequestedMemQty := containerSummary.RequestedMemQty
    PodRequestedCpuQty := containerSummary.RequestedCpuQty
    PodLimitMemQty := containerSummary.LimitMemQty
    PodLimitCpuQty := containerSummary.LimitCpuQty
    NodeUsageCpuQty := some nodeMetrics.cpu
    NodeUsageMemQty := some nodeMetrics.mem
    PodUsageCpuQty := some totals.1
    PodUsageMemQty := some totals.2
    ReadyContainers := statusSummary.Ready
    TotalContainers := statusSummary.Total
    Restarts := statusSummary.Restarts
    NodeAllocatableCpuQty := none
    NodeAllocatableMemQty := none }

/-- SortField from views/model. The Go type is a string; the named constants
NAMESPACE, POD, STATUS, NODE, RESTARTS, CPU, MEMORY, IP and VOLS are embedded
as constructors. The AGE and READY branches of the comparator go through
float64 arithmetic and are not modelled; OTHER s stands for any other
sort-field string and reaches the default branch of the Go switch. -/
inductive SortField where
  | NAMESPACE
  | POD
  | STATUS
  | NODE
  | RESTARTS
  | CPU
  | MEMORY
  | IP
  | VOLS
  | OTHER (s : String)
deriving DecidableEq, Repr

/-- Quantity.MilliValue for an integer-valued quantity: the value scaled to
milli units. Exact for quantities within the int64 milli range. -/
def milliValue (q : Int) : Int := q * 1000

/-- The comparator closure of SortPodModels: podLess field direction a b is
true when a must be ordered strictly before b. direction is the Go int value
of the current sort direction (1 ascending, -1 descending). Products and
differences that the source computes in Go int arithmetic wrap via wrap64. -/
def podLess (field : SortField) (direction : Int) (a b : PodModel) : Bool :=
  match field with
  | .NAMESPACE =>
    if a.Namespace ≠ b.Namespace then
      decide (direction * strCompare a.Namespace b.Namespace < 0)
    else decide (direction * strCompare a.Name b.Name < 0)
  | .POD => decide (direction * strCompare a.Name b.Name < 0)
  | .STATUS =>
    if a.Status ≠ b.Status then
      decide (direction * strCompare a.Status b.Status < 0)
    else decide (direction * strCompare a.Name b.Name < 0)
  | .NODE =>
    if a.Node ≠ b.Node then
      decide (direction * strCompare a.Node b.Node < 0)
    else decide (direction * strCompare a.Name b.Name < 0)
  | .RESTARTS =>
    if a.Restarts ≠ b.Restarts then
      decide (wrap64 (direction * wrap64 (a.Restarts - b.Restarts)) < 0)
    else decide (direction * strCompare a.Name b.Name < 0)
  | .CPU =>
    match a.PodUsageCpuQty, b.PodUsageCpuQty with
    | none, some _ => decide (direction > 0)
    | some _, none => decide (direction < 0)
    | none, none => decide (direction * strCompare a.Name b.Name < 0)
    | some qa, some qb =>
      let cpuI := milliValue qa
      let cpuJ := milliValue qb
      if cpuI ≠ cpuJ then decide (wrap64 (direction * wrap64 (cpuI - cpuJ)) < 0)
      else decide (direction * strCompare a.Name b.Name < 0)
  | .MEMORY =>
    match a.PodUsageMemQty, b.PodUsageMemQty with
    | none, some _ => decide (direction > 0)
    | some _, none => decide (direction < 0)
    | none, none => decide (direction * strCompare a.Name b.Name < 0)
    | some qa, some qb =>
      let memI := qa
      let memJ := qb
      if memI ≠ memJ then decide (wrap64 (direction * wrap64 (memI - memJ)) < 0)
      else decide (direction * strCompare a.Name b.Name < 0)
  | .IP =>
    if a.IP ≠ b.IP then
      decide (direction * strCompare a.IP b.IP < 0)
    else decide (direction * strCompare a.Name b.Name < 0)
  | .VOLS =>
    if a.Volumes ≠ b.Volumes then
      decide (wrap64 (direction * wrap64 (a.Volumes - b.Volumes)) < 0)
    else decide (direction * strCompare a.Name b.Name < 0)
  | .OTHER _ =>
    if a.Namespace ≠ b.Namespace then decide (strCompare a.Namespace b.Namespace < 0)
    else decide (strCompare a.Name b.Name < 0)

/-- A list is in an order SortPodModels may produce when no later element must
be strictly before an earlier one under the comparator. -/
def sortedBy (field : SortField) (direction : Int) (l : List PodModel) : Prop :=
  l.Pairwise fun a b => podLess field direction b a = false

/-- SortAscending from views/model. -/
def SortAscending : Int := 1

/-- SortDescending from views/model. -/
def SortDescending : Int := -1

/-- The pair of package-level variables currentSortField and
currentSortDirection. -/
structure SortStateM where
  currentSortField : SortField
  currentSortDirection : Int
deriving DecidableEq, Repr

/-- The initial values of the two sort variables. -/
def initialSortState : SortStateM :=
  { currentSortField := .NAMESPACE, currentSortDirection := SortAscending }

/-- GetCurrentSortField from views/model. -/
def GetCurrentSortField (s : SortStateM) : SortField := s.currentSortField

/-- GetCurrentSortDirection from views/model. -/
def GetCurrentSortDirection (s : SortStateM) : Int := s.currentSortDirection

/-- SetSortField from views/model: same field flips the direction by
multiplying it with -1, a different field is installed with direction reset to
SortAscending. -/
def SetSortField (s : SortStateM) (field : SortField) : SortStateM :=
  if s.currentSortField = field then
    { s with currentSortDirection := s.currentSortDirection * (-1) }
  else
    { currentSortField := field, currentSortDirection := SortAscending }

/-- The refreshQ channel of application.Application: a buffered channel of
struct values, described by its capacity and the number of buffered
notifications. -/
structure RefreshQ where
  capacity : Nat
  buffered : Nat
deriving DecidableEq, Repr

/-- The channel as allocated in application.New: capacity 1, empty. -/
def newRefreshQ : RefreshQ := { capacity := 1, buffered := 0 }

/-- Application.Refresh: a select with a send case and a default case. The
send succeeds exactly when the buffer has room; otherwise the default case
runs, dropping the request and leaving the channel unchanged. The Bool
records whether the notification was sent. -/
def Refresh (q : RefreshQ) : RefreshQ × Bool :=
  if q.buffered < q.capacity then ({ q with buffered := q.buffered + 1 }, true)
  else (q, false)

/-- A peak map of the controller: pod key to peak quantity, absent entries
being none (the Go map has no entry). -/
def PeakMap : Type := String → Option Int

/-- Store one binding in a string-keyed map. -/
def cacheSet {β : Type} (m : String → Option β) (k : String) (v : β) :
    String → Option β :=
  fun x => if x = k then some v else m x

/-- The peak update block of GetPodModels for one resource kind: initialize
the entry to a zero quantity when the key has no entry yet, then overwrite it
when Cmp finds the current total strictly greater. -/
def peakUpdate (peak : PeakMap) (key : String) (total : Int) : PeakMap :=
  let peak := if (peak key).isNone then cacheSet peak key 0 else peak
  match peak key with
  | some existing => if total > existing then cacheSet peak key total else peak
  | none => peak

/-- The PeakPodCPU and PeakPodMemory maps of the Controller. -/
structure PeakState where
  PeakPodCPU : PeakMap
  PeakPodMemory : PeakMap

/-- The empty maps allocated by newController: the state at process start. -/
def initialPeaks : PeakState :=
  { PeakPodCPU := fun _ => none, PeakPodMemory := fun _ => none }

/-- The environment of one refresh cycle: the context state, the cached pod
list (or its failure), and the outcome of every metrics, node-metrics and
node lookup the cycle may perform. timeSinceOf supplies the wall-clock
dependent age string for each pod. -/
structure Env where
  ctxErr : Bool
  ctxDeadlineExceeded : Bool
  listErr : Bool
  pods : List PodM
  podMetricsOf : PodM → Except Unit PodMetricsM
  nodeMetricsOf : String → Except Unit NodeMetricsM
  nodeOf : String → Except Unit NodeM
  timeSinceOf : PodM → String

/-- GetPodList from the pods controller: fail when the context is already
cancelled, then when the lister fails, else return the cached pods. -/
def GetPodList (env : Env) : Except Unit (List PodM) :=
  if env.ctxErr then .error ()
  else if env.listErr then .error ()
  else .ok env.pods

/-- The pod metrics used for one pod: the fetched value, or new(PodMetrics)
with no containers when the fetch fails. -/
def effectiveMetrics (env : Env) (pod : PodM) : PodMetricsM :=
  match env.podMetricsOf pod with
  | .ok m => m
  | .error _ => { Containers := [] }

/-- The pod key used by the peak tracking block. -/
def podKeyOf (pod : PodM) : String := pod.Namespace ++ "/" ++ pod.Name

/-- External lookups performed by one GetPodModels call, recorded so that the
memoization behaviour is observable. -/
inductive ApiCall where
  | nodeMetricsCall (name : String)
  | nodeCall (name : String)
deriving DecidableEq, Repr

/-- The state carried through the pod loop of GetPodModels: the models built
so far, the two per-call memo maps, the peak maps, and the call log. -/
structure LoopState where
  models : List PodModel
  nodeMetricsCache : String → Option NodeMetricsM
  nodeAllocResMap : String → Option ResourceListM
  peaks : PeakState
  callLog : List ApiCall

/-- The node-metrics block of the pod loop: on a cache miss fetch the node
metrics (substituting new(NodeMetrics) on failure) and store them. -/
def ensureNodeMetrics (env : Env) (st : LoopState) (nodeName : String) : LoopState :=
  match st.nodeMetricsCache nodeName with
  | some _ => st
  | none =>
    let metrics :=
      match env.nodeMetricsOf nodeName with
      | .ok m => m
      | .error _ => { cpu := 0, mem := 0 }
    { st with
      nodeMetricsCache := cacheSet st.nodeMetricsCache nodeName metrics
      callLog := st.callLog ++ [.nodeMetricsCall nodeName] }

/-- The node-allocatable block of the pod loop: on a cache miss fetch the node
(substituting an empty ResourceList on failure) and store its Allocatable. -/
def ensureNodeAlloc (env : Env) (st : LoopState) (nodeName : String) : LoopState :=
  match st.nodeAllocResMap nodeName with
  | some _ => st
  | none =>
    let alloc :=
      match env.nodeOf nodeName with
      | .ok node => node.Allocatable
      | .error _ => { cpu := none, mem := none }
    { st with
      nodeAllocResMap := cacheSet st.nodeAllocResMap nodeName alloc
      callLog := st.callLog ++ [.nodeCall nodeName] }

/-- The peak tracking block of the pod loop, guarded by the containers of the
pod metrics being non-empty. -/
def trackPeaks (peaks : PeakState) (podKey : String) (podMetrics : PodMetricsM) :
    PeakState :=
  if podMetrics.Containers ≠ [] then
    let totals := podMetricsTotals podMetrics
    { PeakPodCPU := peakUpdate peaks.PeakPodCPU podKey totals.1
      PeakPodMemory := peakUpdate peaks.PeakPodMemory podKey totals.2 }
  else peaks

/-- One iteration of the pod loop of GetPodModels. -/
def podStep (env : Env) (st : LoopState) (pod : PodM) : LoopState :=
  let podMetrics := effectiveMetrics env pod
  let st := ensureNodeMetrics env st pod.NodeName
  let nodeMetrics := (st.nodeMetricsCache pod.NodeName).getD { cpu := 0, mem := 0 }
  let m := NewPodModel pod podMetrics nodeMetrics (env.timeSinceOf pod)
  let st := { st with peaks := trackPeaks st.peaks (podKeyOf pod) podMetrics }
  let st := ensureNodeAlloc env st pod.NodeName
  let alloc := (st.nodeAllocResMap pod.NodeName).getD { cpu := none, mem := none }
  let m :=
    { m with
      NodeAllocatableMemQty := some alloc.MemoryQ
      NodeAllocatableCpuQty := some alloc.CpuQ }
  { st with models := st.models ++ [m] }

/-- The value GetPodModels returns: the models together with whether err was
non-nil, plus the updated peak maps and the recorded lookups. -/
structure PodModelsResult where
  models : List PodModel
  failed : Bool
  peaks : PeakState
  callLog : List ApiCall

/-- GetPodModels from the pods controller. When GetPodList fails the named
returns are the nil slice and the error; otherwise the pod loop runs and err
stays nil (the assignments inside the loop shadow the named return). -/
def GetPodModels (env : Env) (peaks : PeakState) : PodModelsResult :=
  match GetPodList env with
  | .error _ => { models := [], failed := true, peaks := peaks, callLog := [] }
  | .ok pods =>
    let st := pods.foldl (podStep env)
      { models := [], nodeMetricsCache := fun _ => none,
        nodeAllocResMap := fun _ => none, peaks := peaks, callLog := [] }
    { models := st.models, failed := false, peaks := st.peaks, callLog := st.callLog }

/-- The collection refreshPods hands to the registered callback, if any: on a
GetPodModels error the callback only runs when the context deadline was
exceeded and some models were returned; otherwise the models are delivered. -/
def refreshPodsDelivered (env : Env) (peaks : PeakState) : Option (List PodModel) :=
  let res := GetPodModels env peaks
  if res.failed then
    if env.ctxDeadlineExceeded then
      if res.models.length > 0 then some res.models else none
    else none
  else some res.models

/-- The cpu totals reported for pod key K during one cycle: one entry per
listed pod with that key whose effective metrics have at least one container.
A failed list reports nothing. -/
def cpuReportsFor (K : String) (env : Env) : List Int :=
  match GetPodList env with
  | .error _ => []
  | .ok pods =>
    pods.filterMap fun pod =>
      if podKeyOf pod = K ∧ (effectiveMetrics env pod).Containers ≠ [] then
        some (podMetricsTotals (effectiveMetrics env pod)).1
      else none

/-- The memory totals reported for pod key K during one cycle. -/
def memReportsFor (K : String) (env : Env) : List Int :=
  match GetPodList env with
  | .error _ => []
  | .ok pods =>
    pods.filterMap fun pod =>
      if podKeyOf pod = K ∧ (effectiveMetrics env pod).Containers ≠ [] then
        some (podMetricsTotals (effectiveMetrics env pod)).2
      else none

/-- The peak maps after a finite sequence of refresh cycles. -/
def runCycles (envs : List Env) (peaks : PeakState) : PeakState :=
  envs.foldl (fun pk e => (GetPodModels e pk).peaks) peaks

/-- A pod model with empty identity fields and no quantities, used as the base
of concrete test fixtures. -/
def basePodModel : PodModel :=
  { Namespace := "", Name := "", Status := "", Node := "", IP := "", TimeSince := ""
    PodRequestedCpuQty := none, PodRequestedMemQty := none
    PodLimitCpuQty := none, PodLimitMemQty := none
    PodUsageCpuQty := none, PodUsageMemQty := none
    NodeAllocatableCpuQty := none, NodeAllocatableMemQty := none
    NodeUsageCpuQty := none, NodeUsageMemQty := none
    ReadyContainers := 0, TotalContainers := 0, Restarts := 0
    Volumes := 0, VolMounts := 0 }

/-- A raw pod with empty spec and status, used as the base of fixtures. -/
def basePodM : PodM :=
  { Namespace := "ns", Name := "", NodeName := "n1", PodIP := ""
    Containers := [], InitContainers := [], Overhead := none, Volumes := 0
    ContainerStatuses := [], Conditions := [] }

/-- Claim C7: the redraw notification channel is created with capacity exactly
one, and Refresh performs a non-blocking send: when a notification is already
buffered the request is dropped and the channel state is unchanged, otherwise
the notification is buffered. Refresh is a total function of the channel
state, so no call ever blocks the caller. -/
theorem C7_redraw_channel (q : RefreshQ) :
    newRefreshQ.capacity = 1 ∧ newRefreshQ.buffered = 0 ∧
    (q.capacity ≤ q.buffered → Refresh q = (q, false)) ∧
    (q.buffered < q.capacity →
      (Refresh q).1 = { q with buffered := q.buffered + 1 } ∧ (Refresh q).2 = true) := by
  refine ⟨rfl, rfl, ?_, ?_⟩
  · intro h
    unfold Refresh
    rw [if_neg (by omega)]
  · intro h
    unfold Refresh
    rw [if_pos h]
    exact ⟨rfl, rfl⟩

/-- Witness for claim C7 at concrete channel states: a full capacity-1 channel
drops the request unchanged, and the fresh channel accepts it. -/
theorem C7_redraw_channel_witness :
    Refresh { capacity := 1, buffered := 1 } = ({ capacity := 1, buffered := 1 }, false) ∧
    (Refresh newRefreshQ).2 = true :=
  ⟨(C7_redraw_channel { capacity := 1, buffered := 1 }).2.2.1 (by decide),
   ((C7_redraw_channel newRefreshQ).2.2.2 (by decide)).2⟩

/-- Helper for claim C6: one SetSortField call keeps the direction in the set
of the two direction constants. -/
theorem setSortField_direction_cases (s : SortStateM) (f : SortField)
    (h : s.currentSortDirection = SortAscending ∨ s.currentSortDirection = SortDescending) :
    (SetSortField s f).currentSortDirection = SortAscending ∨
      (SetSortField s f).currentSortDirection = SortDescending := by
  unfold SetSortField
  rcases h with h | h <;> split <;>
    simp [h, SortAscending, SortDescending]

/-- Helper for claim C6: after any sequence of SetSortField calls starting at
the initial state, the direction is one of the two direction constants. -/
theorem foldl_setSortField_direction (fs : List SortField) (s : SortStateM)
    (h : s.currentSortDirection = SortAscending ∨ s.currentSortDirection = SortDescending) :
    (fs.foldl SetSortField s).currentSortDirection = SortAscending ∨
      (fs.foldl SetSortField s).currentSortDirection = SortDescending := by
  induction fs generalizing s with
  | nil => exact h
  | cons f fs ih => exact ih _ (setSortField_direction_cases s f h)

/-- Claim C6: selecting the currently-active sort field flips the direction,
selecting a different field installs it with the direction reset to ascending,
and along any sequence of SetSortField calls from the initial state the
direction read back through the accessors is always one of exactly the two
direction constants. The accessor pair is the whole sort state. -/
theorem C6_sort_state_machine (s : SortStateM) (f : SortField) :
    (s.currentSortField = f →
      GetCurrentSortField (SetSortField s f) = s.currentSortField ∧
      GetCurrentSortDirection (SetSortField s f) = -(GetCurrentSortDirection s)) ∧
    (s.currentSortField ≠ f →
      GetCurrentSortField (SetSortField s f) = f ∧
      GetCurrentSortDirection (SetSortField s f) = SortAscending) ∧
    (∀ fs : List SortField,
      GetCurrentSortDirection (fs.foldl SetSortField initialSortState) = SortAscending ∨
      GetCurrentSortDirection (fs.foldl SetSortField initialSortState) = SortDescending) := by
  refine ⟨?_, ?_, ?_⟩
  · intro h
    unfold SetSortField GetCurrentSortField GetCurrentSortDirection
    rw [if_pos h]
    exact ⟨rfl, by ring⟩
  · intro h
    unfold SetSortField GetCurrentSortField GetCurrentSortDirection
    rw [if_neg h]
    exact ⟨rfl, rfl⟩
  · intro fs
    exact foldl_setSortField_direction fs initialSortState (Or.inl rfl)

/-- Witness for claim C6 at a concrete state: selecting CPU from the initial
state installs CPU ascending, and re-selecting CPU flips to descending. -/
theorem C6_sort_state_machine_witness :
    (GetCurrentSortField (SetSortField initialSortState SortField.CPU) = SortField.CPU ∧
      GetCurrentSortDirection (SetSortField initialSortState SortField.CPU) = SortAscending) ∧
    GetCurrentSortDirection
        (SetSortField { currentSortField := SortField.CPU, currentSortDirection := 1 }
          SortField.CPU) = -1 :=
  ⟨(C6_sort_state_machine initialSortState SortField.CPU).2.1 (by decide),
   ((C6_sort_state_machine { currentSortField := SortField.CPU, currentSortDirection := 1 }
      SortField.CPU).1 (by decide)).2⟩

/-- Claim C9: GetPodModels reports a failure exactly when the context is
already cancelled or listing pods from the cache fails, and a failure always
comes with the empty collection; per-pod metrics, node-metrics and node
failures never make the call fail. -/
theorem C9_error_only_from_list (env : Env) (peaks : PeakState) :
    ((GetPodModels env peaks).failed = true ↔ (env.ctxErr = true ∨ env.listErr = true)) ∧
    ((GetPodModels env peaks).failed = true → (GetPodModels env peaks).models = []) := by
  cases h1 : env.ctxErr <;> cases h2 : env.listErr <;>
    simp [GetPodModels, GetPodList, h1, h2]

/-- A cycle environment whose context is already cancelled. -/
def envC9 : Env :=
  { ctxErr := true, ctxDeadlineExceeded := false, listErr := false, pods := []
    podMetricsOf := fun _ => .error (), nodeMetricsOf := fun _ => .error ()
    nodeOf := fun _ => .error (), timeSinceOf := fun _ => "" }

/-- Witness for claim C9: a cycle with a cancelled context fails and returns
the empty collection. -/
theorem C9_error_only_from_list_witness :
    (GetPodModels envC9 initialPeaks).models = [] :=
  (C9_error_only_from_list envC9 initialPeaks).2 (by decide)

/-- A pod whose metrics report a genuine zero usage reading. -/
def podZeroUsage : PodM := { basePodM with Name := "zero-usage" }

/-- A pod whose metrics fetch fails during the cycle. -/
def podLostMetrics : PodM := { basePodM with Name := "lost-metrics" }

/-- A cycle in which the pod list succeeds, the first pod reports zero usage
and the metrics fetch for the second pod fails. -/
def envC2 : Env :=
  { ctxErr := false, ctxDeadlineExceeded := false, listErr := false
    pods := [podZeroUsage, podLostMetrics]
    podMetricsOf := fun pod =>
      if pod.Name = "zero-usage" then .ok { Containers := [{ cpu := 0, mem := 0 }] }
      else .error ()
    nodeMetricsOf := fun _ => .ok { cpu := 7, mem := 8 }
    nodeOf := fun _ => .ok { Allocatable := { cpu := some 1000, mem := some 2000 } }
    timeSinceOf := fun _ => "1m" }

/-- Claim C2, evaluated at the failing input: the metrics fetch for the second
pod fails (its effective metrics have no containers), yet its view model
carries the present quantities some 0 for cpu and memory usage, identical to
the view model of the first pod whose metrics genuinely report zero usage.
The missing reading is therefore represented as zero, not as an absent value
distinguishable from zero. Building does not fail hard: the call succeeds. -/
theorem C2_missing_metrics_rendered_as_zero :
    (effectiveMetrics envC2 podLostMetrics).Containers = [] ∧
    ((GetPodModels envC2 initialPeaks).models.map PodModel.PodUsageCpuQty) =
      [some 0, some 0] ∧
    ((GetPodModels envC2 initialPeaks).models.map PodModel.PodUsageMemQty) =
      [some 0, some 0] ∧
    (GetPodModels envC2 initialPeaks).failed = false := by
  decide

/-- Helper: the node-metrics block does not change the models built so far. -/
theorem ensureNodeMetrics_models (env : Env) (st : LoopState) (n : String) :
    (ensureNodeMetrics env st n).models = st.models := by
  unfold ensureNodeMetrics
  split <;> rfl

/-- Helper: the node-allocatable block does not change the models built so
far. -/
theorem ensureNodeAlloc_models (env : Env) (st : LoopState) (n : String) :
    (ensureNodeAlloc env st n).models = st.models := by
  unfold ensureNodeAlloc
  split <;> rfl

/-- Helper: each iteration of the pod loop appends exactly one model. -/
theorem podStep_models_length (env : Env) (st : LoopState) (pod : PodM) :
    (podStep env st pod).models.length = st.models.length + 1 := by
  unfold podStep
  simp [ensureNodeAlloc_models, ensureNodeMetrics_models]

/-- Helper: the pod loop builds one model per listed pod. -/
theorem podsFold_models_length (env : Env) (pods : List PodM) (st : LoopState) :
    (pods.foldl (podStep env) st).models.length = st.models.length + pods.length := by
  induction pods generalizing st with
  | nil => simp
  | cons p ps ih =>
    rw [List.foldl_cons, ih, podStep_models_length, List.length_cons]
    omega

/-- Claim C3 as amended: whenever the pod list succeeds, the cycle builds one
view model for every listed pod (pods whose metrics fetch fails get
placeholder values instead of being skipped) and refreshPods delivers that
full collection to the callback; a cycle with a successful list never
delivers a strict subset of the pods and never surfaces an error. -/
theorem C3_full_delivery_on_list_success (env : Env) (peaks : PeakState)
    (hctx : env.ctxErr = false) (hlist : env.listErr = false) :
    refreshPodsDelivered env peaks = some (GetPodModels env peaks).models ∧
    (GetPodModels env peaks).models.length = env.pods.length := by
  have hok : GetPodList env = .ok env.pods := by
    simp [GetPodList, hctx, hlist]
  have hfail : (GetPodModels env peaks).failed = false := by
    unfold GetPodModels
    rw [hok]
  constructor
  · unfold refreshPodsDelivered
    simp [hfail]
  · unfold GetPodModels
    rw [hok]
    simpa using podsFold_models_length env env.pods
      { models := [], nodeMetricsCache := fun _ => none,
        nodeAllocResMap := fun _ => none, peaks := peaks, callLog := [] }

/-- The partial-timeout scenario of claim C3: the list succeeds with five
pods, the context deadline expires during metrics fetching, and the metrics
fetch succeeds for exactly three of the five pods. -/
def envC3 : Env :=
  { ctxErr := false, ctxDeadlineExceeded := true, listErr := false
    pods := ["p1", "p2", "p3", "p4", "p5"].map fun nm => { basePodM with Name := nm }
    podMetricsOf := fun pod =>
      if pod.Name = "p1" ∨ pod.Name = "p2" ∨ pod.Name = "p3" then
        .ok { Containers := [{ cpu := 100, mem := 200 }] }
      else .error ()
    nodeMetricsOf := fun _ => .error ()
    nodeOf := fun _ => .error ()
    timeSinceOf := fun _ => "2m" }

/-- Counterexample to claim C3 as stated: in the very scenario the claim
describes (deadline expired while metrics succeeded for 3 of 5 pods), the
callback receives a five-pod collection, not the three-pod partial
collection: view models are never built for only a strict subset of the
listed pods, so the partial-delivery branch of refreshPods cannot fire. -/
theorem C3_counterexample :
    (refreshPodsDelivered envC3 initialPeaks).map List.length = some 5 ∧
    (refreshPodsDelivered envC3 initialPeaks).map List.length ≠ some 3 ∧
    envC3.ctxDeadlineExceeded = true ∧
    (envC3.pods.filter fun pod =>
      (effectiveMetrics envC3 pod).Containers ≠ []).length = 3 := by
  decide

/-- Witness for claim C3 as amended, at the concrete partial-timeout
environment: the full five-pod collection is delivered. -/
theorem C3_full_delivery_witness :
    refreshPodsDelivered envC3 initialPeaks = some (GetPodModels envC3 initialPeaks).models ∧
    (GetPodModels envC3 initialPeaks).models.length = envC3.pods.length :=
  C3_full_delivery_on_list_success envC3 initialPeaks (by decide) (by decide)

/-- The status string the switch of getContainerStatusSummary assigns for one
container status, if its state matches any case. -/
def containerStatusOf (stat : ContainerStatusM) : Option String :=
  if stat.Ready && stat.State.Running then some "Running"
  else if (stat.State.Waiting).isSome then some ((stat.State.Waiting).getD "")
  else
    match stat.State.Terminated with
    | some (reason, signal, exitCode) =>
      if reason ≠ "" then some reason
      else if signal ≠ 0 then some ("Sig:" ++ toString signal)
      else some ("Exit:" ++ toString exitCode)
    | none => none

/-- Helper for claim C8: one loop iteration, written componentwise. -/
theorem containerStatusStep_eq (init : ContainerStatusSummary) (s : ContainerStatusM) :
    containerStatusStep init s =
      { Ready := init.Ready + (if s.Ready && s.State.Running then 1 else 0)
        Total := init.Total
        Restarts := init.Restarts + s.RestartCount
        Status := (containerStatusOf s).getD init.Status
        SomeRunning := init.SomeRunning || (s.Ready && s.State.Running) } := by
  unfold containerStatusStep containerStatusOf
  cases hb : s.Ready && s.State.Running with
  | true => simp [hb]
  | false =>
    cases hw : s.State.Waiting with
    | some r => simp [hb, hw]
    | none =>
      cases ht : s.State.Terminated with
      | none => simp [hb, hw, ht]
      | some t =>
        obtain ⟨reason, signal, exitCode⟩ := t
        by_cases hr : reason = ""
        · by_cases hs : signal = 0 <;> simp [hb, hw, ht, hr, hs]
        · simp [hb, hw, ht, hr]

/-- Helper for claim C8: the last assigned status of a cons in terms of the
tail. -/
theorem getLast_filterMap_cons {α β : Type} (f : α → Option β) (s : α)
    (rest : List α) (d : β) :
    (((s :: rest).filterMap f).getLast?).getD d =
      ((rest.filterMap f).getLast?).getD ((f s).getD d) := by
  rw [List.filterMap_cons]
  cases h : f s with
  | none => simp
  | some v =>
    cases h2 : rest.filterMap f with
    | nil => simp [h2]
    | cons w l2 =>
      rw [List.getLast?_cons_cons]
      cases hl : (w :: l2).getLast? with
      | none => simp at hl
      | some y => simp

/-- Helper for claim C8: the loop of getContainerStatusSummary computed in
closed form; the status is the last status any container assigned. -/
theorem foldl_containerStatusStep (stats : List ContainerStatusM)
    (init : ContainerStatusSummary) :
    stats.foldl containerStatusStep init =
      { Ready := init.Ready +
          ((stats.filter fun s => s.Ready && s.State.Running).length : Int)
        Total := init.Total
        Restarts := init.Restarts + (stats.map ContainerStatusM.RestartCount).sum
        Status := ((stats.filterMap containerStatusOf).getLast?).getD init.Status
        SomeRunning := init.SomeRunning ||
          (stats.any fun s => s.Ready && s.State.Running) } := by
  induction stats generalizing init with
  | nil => simp
  | cons s rest ih =>
    rw [List.foldl_cons, containerStatusStep_eq, ih]
    simp only [ContainerStatusSummary.mk.injEq]
    refine ⟨?_, trivial, ?_, ?_, ?_⟩
    · rw [List.filter_cons]
      cases hb : s.Ready && s.State.Running
      · simp [hb]
      · simp only [hb, if_pos, List.length_cons]
        push_cast
        ring
    · rw [List.map_cons, List.sum_cons]
      ring
    · rw [getLast_filterMap_cons]
    · rw [List.any_cons, Bool.or_assoc]

/-- Helper for claim C8: the pod-level status of a built view model: the last
status assigned by any container, with the Running/NotReady resolution applied
exactly when that status is empty or Completed and some container was both
ready and running. -/
theorem NewPodModel_Status (pod : PodM) (pm : PodMetricsM) (nm : NodeMetricsM)
    (ts : String) :
    (NewPodModel pod pm nm ts).Status =
      (if ((((pod.ContainerStatuses.filterMap containerStatusOf).getLast?).getD "" = "" ∨
            ((pod.ContainerStatuses.filterMap containerStatusOf).getLast?).getD "" = "Completed") ∧
          (pod.ContainerStatuses.any fun s => s.Ready && s.State.Running) = true) then
        (if podIsReady pod.Conditions = true then "Running" else "NotReady")
      else (((pod.ContainerStatuses.filterMap containerStatusOf).getLast?).getD "")) := by
  unfold NewPodModel getContainerStatusSummary
  rw [foldl_containerStatusStep]
  simp only [Bool.false_or]
  by_cases h1 : ((((pod.ContainerStatuses.filterMap containerStatusOf).getLast?).getD "" = "" ∨
      ((pod.ContainerStatuses.filterMap containerStatusOf).getLast?).getD "" = "Completed") ∧
      (pod.ContainerStatuses.any fun s => s.Ready && s.State.Running) = true)
  · rw [if_pos h1]
    have hb : ((((pod.ContainerStatuses.filterMap containerStatusOf).getLast?).getD "" == "" ||
        ((pod.ContainerStatuses.filterMap containerStatusOf).getLast?).getD "" == "Completed") &&
        (pod.ContainerStatuses.any fun s => s.Ready && s.State.Running)) = true := by
      simp only [Bool.and_eq_true, Bool.or_eq_true, beq_iff_eq]
      exact h1
    rw [if_pos hb]
    by_cases h2 : podIsReady pod.Conditions = true
    · rw [if_pos h2, if_pos h2]
    · rw [if_neg h2, if_neg h2]
  · rw [if_neg h1]
    have hb : ¬ (((((pod.ContainerStatuses.filterMap containerStatusOf).getLast?).getD "" == "" ||
        ((pod.ContainerStatuses.filterMap containerStatusOf).getLast?).getD "" == "Completed") &&
        (pod.ContainerStatuses.any fun s => s.Ready && s.State.Running)) = true) := by
      simp only [Bool.and_eq_true, Bool.or_eq_true, beq_iff_eq]
      exact h1
    rw [if_neg hb]

/-- Claim C8 as amended: a container counts as Ready exactly when its state is
Running and its readiness flag is set; the summary status is the last (not
first) status assigned while walking the container statuses in order, where a
ready-and-running container assigns Running and a waiting or terminated
container assigns its reason; the Running/NotReady resolution applies exactly
when that summary status is empty or Completed and some container was both
ready and running (so a pod whose only containers are running but not ready
resolves to the empty status, not to NotReady). -/
theorem C8_status_precedence (stats : List ContainerStatusM) (pod : PodM)
    (pm : PodMetricsM) (nm : NodeMetricsM) (ts : String) :
    (getContainerStatusSummary stats).Ready =
      (((stats.filter fun s => s.Ready && s.State.Running).length : Int)) ∧
    (getContainerStatusSummary stats).Total = (stats.length : Int) ∧
    (getContainerStatusSummary stats).Restarts =
      (stats.map ContainerStatusM.RestartCount).sum ∧
    (getContainerStatusSummary stats).SomeRunning =
      (stats.any fun s => s.Ready && s.State.Running) ∧
    (getContainerStatusSummary stats).Status =
      ((stats.filterMap containerStatusOf).getLast?).getD "" ∧
    (NewPodModel pod pm nm ts).Status =
      (if ((((pod.ContainerStatuses.filterMap containerStatusOf).getLast?).getD "" = "" ∨
            ((pod.ContainerStatuses.filterMap containerStatusOf).getLast?).getD "" = "Completed") ∧
          (pod.ContainerStatuses.any fun s => s.Ready && s.State.Running) = true) then
        (if podIsReady pod.Conditions = true then "Running" else "NotReady")
      else (((pod.ContainerStatuses.filterMap containerStatusOf).getLast?).getD "")) := by
  unfold getContainerStatusSummary
  rw [foldl_containerStatusStep]
  refine ⟨by simp, by simp, by simp, by simp, by simp, NewPodModel_Status pod pm nm ts⟩

/-- A container waiting with reason ErrImagePull. -/
def csWaitA : ContainerStatusM :=
  { Ready := false, RestartCount := 0
    State := { Running := false, Waiting := some "ErrImagePull", Terminated := none } }

/-- A container waiting with reason CrashLoopBackOff. -/
def csWaitB : ContainerStatusM :=
  { Ready := false, RestartCount := 0
    State := { Running := false, Waiting := some "CrashLoopBackOff", Terminated := none } }

/-- A container that is running but whose readiness probe has not succeeded. -/
def csRunNotReady : ContainerStatusM :=
  { Ready := false, RestartCount := 0
    State := { Running := true, Waiting := none, Terminated := none } }

/-- A pod whose only container is running but not ready, with no Ready
condition. -/
def podRunNotReady : PodM := { basePodM with ContainerStatuses := [csRunNotReady] }

/-- Counterexample to claim C8 as stated: with two waiting containers the pod
status is the last waiting reason, not the first; and a pod whose only
container is running but not ready resolves to the empty status rather than
NotReady, because the Running/NotReady resolution requires a container that is
both ready and running. -/
theorem C8_counterexample :
    (getContainerStatusSummary [csWaitA, csWaitB]).Status = "CrashLoopBackOff" ∧
    (getContainerStatusSummary [csWaitA, csWaitB]).Status ≠ "ErrImagePull" ∧
    (NewPodModel podRunNotReady { Containers := [] } { cpu := 0, mem := 0 } "").Status = "" ∧
    csRunNotReady.State.Running = true ∧
    (NewPodModel podRunNotReady { Containers := [] } { cpu := 0, mem := 0 } "").Status ≠
      "NotReady" := by
  decide

/-- The usage quantity a metric sort field compares. -/
def usageOf (f : SortField) (p : PodModel) : Option Int :=
  match f with
  | .CPU => p.PodUsageCpuQty
  | .MEMORY => p.PodUsageMemQty
  | _ => none

/-- Helper for claim C5: under a metric sort field, a pod without the usage
quantity is strictly before any pod with one when ascending, and strictly
after it when descending, regardless of the present value (in particular a
present zero). -/
theorem podLess_absent_present (f : SortField)
    (hf : f = SortField.CPU ∨ f = SortField.MEMORY)
    (a b : PodModel) (ha : usageOf f a = none) (hb : (usageOf f b).isSome) :
    podLess f 1 a b = true ∧ podLess f 1 b a = false ∧
    podLess f (-1) b a = true ∧ podLess f (-1) a b = false := by
  obtain ⟨q, hq⟩ := Option.isSome_iff_exists.mp hb
  rcases hf with rfl | rfl <;>
    simp_all [podLess, usageOf]

/-- Claim C5: in any order the comparator admits for a collection under the
CPU or MEMORY sort field, ascending places every pod with an absent usage
quantity before every pod with a present one, and descending places it after;
an absent quantity is ordered strictly against any present value, including a
present zero, rather than being compared as zero. -/
theorem C5_missing_metric_ordering (f : SortField)
    (hf : f = SortField.CPU ∨ f = SortField.MEMORY)
    (dir : Int) (l l2 : List PodModel)
    (_hperm : List.Perm l2 l) (hsort : sortedBy f dir l2) :
    (dir = 1 → l2.Pairwise fun a b => usageOf f a = none ∨ (usageOf f b).isSome) ∧
    (dir = -1 → l2.Pairwise fun a b => usageOf f b = none ∨ (usageOf f a).isSome) ∧
    (∀ a b : PodModel, usageOf f a = none → (usageOf f b).isSome →
      podLess f 1 a b = true ∧ podLess f 1 b a = false ∧
      podLess f (-1) b a = true ∧ podLess f (-1) a b = false) := by
  refine ⟨?_, ?_, fun a b ha hb => podLess_absent_present f hf a b ha hb⟩
  · intro hdir
    subst hdir
    refine hsort.imp ?_
    intro a b hab
    by_contra hcon
    push_neg at hcon
    obtain ⟨ha, hb⟩ := hcon
    have ha2 : (usageOf f a).isSome := Option.ne_none_iff_isSome.mp ha
    have hb2 : usageOf f b = none := Option.not_isSome_iff_eq_none.mp hb
    have := (podLess_absent_present f hf b a hb2 ha2).1
    rw [this] at hab
    exact Bool.true_eq_false.mp hab
  · intro hdir
    subst hdir
    refine hsort.imp ?_
    intro a b hab
    by_contra hcon
    push_neg at hcon
    obtain ⟨hb, ha⟩ := hcon
    have hb2 : (usageOf f b).isSome := Option.ne_none_iff_isSome.mp hb
    have ha2 : usageOf f a = none := Option.not_isSome_iff_eq_none.mp ha
    have := (podLess_absent_present f hf a b ha2 hb2).2.2.1
    rw [this] at hab
    exact Bool.true_eq_false.mp hab

/-- A pod model with no usage data. -/
def pAbsent : PodModel := { basePodModel with Name := "abs" }

/-- A pod model with a present zero usage reading. -/
def pPresentZero : PodModel :=
  { basePodModel with Name := "pres", PodUsageCpuQty := some 0, PodUsageMemQty := some 0 }

/-- Witness for claim C5 at a concrete two-pod collection sorted ascending by
CPU: the pod with no data comes first, strictly before the pod with a present
zero reading. -/
theorem C5_missing_metric_ordering_witness :
    ([pAbsent, pPresentZero].Pairwise fun a b =>
      usageOf SortField.CPU a = none ∨ (usageOf SortField.CPU b).isSome) ∧
    podLess SortField.CPU 1 pAbsent pPresentZero = true :=
  ⟨(C5_missing_metric_ordering SortField.CPU (Or.inl rfl) 1
      [pPresentZero, pAbsent] [pAbsent, pPresentZero]
      (by decide) (by unfold sortedBy; decide)).1 rfl,
   ((C5_missing_metric_ordering SortField.CPU (Or.inl rfl) 1
      [pPresentZero, pAbsent] [pAbsent, pPresentZero]
      (by decide) (by unfold sortedBy; decide)).2.2 pAbsent pPresentZero
      (by decide) (by decide)).1⟩

/-- The node allocatable list a lookup of node n yields, the empty list being
the substitute on failure. -/
def allocOf (env : Env) (n : String) : ResourceListM :=
  match env.nodeOf n with
  | .ok node => node.Allocatable
  | .error _ => { cpu := none, mem := none }

/-- Invariant of the pod loop for claim C10: each memo map has been filled
exactly by the logged lookups (one per name at most), the allocatable memo
agrees with the environment, and every built model carries the allocatable
values of its own node. -/
def memoInv (env : Env) (st : LoopState) : Prop :=
  (∀ n, st.callLog.count (ApiCall.nodeCall n) =
      (if (st.nodeAllocResMap n).isSome then 1 else 0)) ∧
  (∀ n, st.callLog.count (ApiCall.nodeMetricsCall n) =
      (if (st.nodeMetricsCache n).isSome then 1 else 0)) ∧
  (∀ n a, st.nodeAllocResMap n = some a → a = allocOf env n) ∧
  (∀ m ∈ st.models,
      m.NodeAllocatableCpuQty = some (allocOf env m.Node).CpuQ ∧
      m.NodeAllocatableMemQty = some (allocOf env m.Node).MemoryQ)

/-- The node metrics a lookup of node n yields, zero usage being the
substitute on failure. -/
def nodeMetricsOrZero (env : Env) (n : String) : NodeMetricsM :=
  match env.nodeMetricsOf n with
  | .ok m => m
  | .error _ => { cpu := 0, mem := 0 }

/-- Reading the key just stored. -/
theorem cacheSet_same {β : Type} (m : String → Option β) (k : String) (v : β) :
    cacheSet m k v k = some v := by
  simp [cacheSet]

/-- Reading another key. -/
theorem cacheSet_other {β : Type} (m : String → Option β) (k : String) (v : β)
    (n : String) (h : n ≠ k) : cacheSet m k v n = m n := by
  simp [cacheSet, h]

/-- The node-metrics block on a cache hit. -/
theorem ensureNodeMetrics_hit (env : Env) (st : LoopState) (nd : String) (v : NodeMetricsM)
    (h : st.nodeMetricsCache nd = some v) : ensureNodeMetrics env st nd = st := by
  unfold ensureNodeMetrics
  rw [h]

/-- The node-metrics block on a cache miss. -/
theorem ensureNodeMetrics_miss (env : Env) (st : LoopState) (nd : String)
    (h : st.nodeMetricsCache nd = none) :
    ensureNodeMetrics env st nd =
      { st with
        nodeMetricsCache := cacheSet st.nodeMetricsCache nd (nodeMetricsOrZero env nd)
        callLog := st.callLog ++ [ApiCall.nodeMetricsCall nd] } := by
  unfold ensureNodeMetrics nodeMetricsOrZero
  rw [h]

/-- The node-allocatable block on a cache hit. -/
theorem ensureNodeAlloc_hit (env : Env) (st : LoopState) (nd : String) (v : ResourceListM)
    (h : st.nodeAllocResMap nd = some v) : ensureNodeAlloc env st nd = st := by
  unfold ensureNodeAlloc
  rw [h]

/-- The node-allocatable block on a cache miss. -/
theorem ensureNodeAlloc_miss (env : Env) (st : LoopState) (nd : String)
    (h : st.nodeAllocResMap nd = none) :
    ensureNodeAlloc env st nd =
      { st with
        nodeAllocResMap := cacheSet st.nodeAllocResMap nd (allocOf env nd)
        callLog := st.callLog ++ [ApiCall.nodeCall nd] } := by
  unfold ensureNodeAlloc allocOf
  rw [h]

/-- Helper for claim C10: the node-metrics block preserves the loop
invariant. -/
theorem memoInv_ensureNodeMetrics (env : Env) (st : LoopState) (nd : String)
    (h : memoInv env st) : memoInv env (ensureNodeMetrics env st nd) := by
  obtain ⟨h1, h2, h3, h4⟩ := h
  cases hc : st.nodeMetricsCache nd with
  | some v => rw [ensureNodeMetrics_hit env st nd v hc]; exact ⟨h1, h2, h3, h4⟩
  | none =>
    rw [ensureNodeMetrics_miss env st nd hc]
    refine ⟨fun n => ?_, fun n => ?_, h3, h4⟩
    · have hne : (ApiCall.nodeCall n == ApiCall.nodeMetricsCall nd) = false :=
        beq_eq_false_iff_ne.mpr (fun hcon => ApiCall.noConfusion hcon)
      simp [List.count_append, List.count_cons, h1 n, hne]
    · by_cases hn : n = nd
      · subst hn
        simp [List.count_append, List.count_cons, h2 n, hc, cacheSet]
      · have hne : (ApiCall.nodeMetricsCall n == ApiCall.nodeMetricsCall nd) = false := by
          refine beq_eq_false_iff_ne.mpr (fun hcon => hn ?_)
          cases hcon
          rfl
        simp [List.count_append, List.count_cons, h2 n, cacheSet, hn, hne]

/-- Helper for claim C10: the node-allocatable block preserves the loop
invariant. -/
theorem memoInv_ensureNodeAlloc (env : Env) (st : LoopState) (nd : String)
    (h : memoInv env st) : memoInv env (ensureNodeAlloc env st nd) := by
  obtain ⟨h1, h2, h3, h4⟩ := h
  cases hc : st.nodeAllocResMap nd with
  | some v => rw [ensureNodeAlloc_hit env st nd v hc]; exact ⟨h1, h2, h3, h4⟩
  | none =>
    rw [ensureNodeAlloc_miss env st nd hc]
    refine ⟨fun n => ?_, fun n => ?_, fun n a ha => ?_, h4⟩
    · by_cases hn : n = nd
      · subst hn
        simp [List.count_append, List.count_cons, h1 n, hc, cacheSet]
      · have hne : (ApiCall.nodeCall n == ApiCall.nodeCall nd) = false := by
          refine beq_eq_false_iff_ne.mpr (fun hcon => hn ?_)
          cases hcon
          rfl
        simp [List.count_append, List.count_cons, h1 n, cacheSet, hn, hne]
    · have hne : (ApiCall.nodeMetricsCall n == ApiCall.nodeCall nd) = false :=
        beq_eq_false_iff_ne.mpr (fun hcon => ApiCall.noConfusion hcon)
      simp [List.count_append, List.count_cons, h2 n, hne]
    · by_cases hn : n = nd
      · subst hn
        simp only [cacheSet, if_pos rfl] at ha
        simp at ha
        exact ha.symm
      · simp only [cacheSet, if_neg hn] at ha
        exact h3 n a ha

/-- Helper for claim C10: after the node-allocatable block the memo has an
entry for the requested node. -/
theorem ensureNodeAlloc_cache_isSome (env : Env) (st : LoopState) (nd : String) :
    ((ensureNodeAlloc env st nd).nodeAllocResMap nd).isSome := by
  cases hc : st.nodeAllocResMap nd with
  | some v =>
    rw [ensureNodeAlloc_hit env st nd v hc, hc]
    rfl
  | none =>
    rw [ensureNodeAlloc_miss env st nd hc]
    show (cacheSet st.nodeAllocResMap nd (allocOf env nd) nd).isSome
    rw [cacheSet_same]
    rfl

/-- Helper for claim C10: the allocatable memo only holds environment
values. -/
theorem ensureNodeAlloc_cache_value (env : Env) (st : LoopState) (nd : String)
    (h : memoInv env st) (a : ResourceListM)
    (ha : (ensureNodeAlloc env st nd).nodeAllocResMap nd = some a) :
    a = allocOf env nd :=
  (memoInv_ensureNodeAlloc env st nd h).2.2.1 nd a ha

/-- Helper for claim C10: appending a model that carries the allocatable
values of its own node preserves the invariant. -/
theorem memoInv_append_model (env : Env) (st : LoopState) (m : PodModel)
    (h : memoInv env st)
    (hcpu : m.NodeAllocatableCpuQty = some (allocOf env m.Node).CpuQ)
    (hmem : m.NodeAllocatableMemQty = some (allocOf env m.Node).MemoryQ) :
    memoInv env { st with models := st.models ++ [m] } := by
  obtain ⟨h1, h2, h3, h4⟩ := h
  refine ⟨h1, h2, h3, fun x hx => ?_⟩
  rcases List.mem_append.mp hx with hx | hx
  · exact h4 x hx
  · rw [List.mem_singleton.mp hx]
    exact ⟨hcpu, hmem⟩

/-- Helper for claim C10: the tail of one loop iteration (allocatable lookup
plus appending the finished model) preserves the invariant, for any base
model built for the node of the pod. -/
theorem memoInv_allocStep_append (env : Env) (stp : LoopState) (nd : String)
    (m0 : PodModel) (hnode : m0.Node = nd) (h : memoInv env stp) :
    memoInv env
      { ensureNodeAlloc env stp nd with
        models := (ensureNodeAlloc env stp nd).models ++
          [{ m0 with
             NodeAllocatableMemQty := some (((ensureNodeAlloc env stp nd).nodeAllocResMap nd).getD
               { cpu := none, mem := none }).MemoryQ
             NodeAllocatableCpuQty := some (((ensureNodeAlloc env stp nd).nodeAllocResMap nd).getD
               { cpu := none, mem := none }).CpuQ }] } := by
  have h2 := memoInv_ensureNodeAlloc env stp nd h
  obtain ⟨a, ha⟩ := Option.isSome_iff_exists.mp (ensureNodeAlloc_cache_isSome env stp nd)
  have haval : a = allocOf env nd := ensureNodeAlloc_cache_value env stp nd h a ha
  refine memoInv_append_model env _ _ h2 ?_ ?_
  · show some (((ensureNodeAlloc env stp nd).nodeAllocResMap nd).getD
      { cpu := none, mem := none }).CpuQ = some (allocOf env m0.Node).CpuQ
    rw [ha, hnode, haval]
    rfl
  · show some (((ensureNodeAlloc env stp nd).nodeAllocResMap nd).getD
      { cpu := none, mem := none }).MemoryQ = some (allocOf env m0.Node).MemoryQ
    rw [ha, hnode, haval]
    rfl

/-- Helper for claim C10: one pod-loop iteration preserves the invariant. -/
theorem memoInv_podStep (env : Env) (st : LoopState) (pod : PodM)
    (h : memoInv env st) : memoInv env (podStep env st pod) := by
  unfold podStep
  have hinv1 := memoInv_ensureNodeMetrics env st pod.NodeName h
  exact memoInv_allocStep_append env _ pod.NodeName _ rfl
    ⟨hinv1.1, hinv1.2.1, hinv1.2.2.1, hinv1.2.2.2⟩

/-- Helper for claim C10: the whole pod loop preserves the invariant. -/
theorem memoInv_foldl (env : Env) (pods : List PodM) (st : LoopState)
    (h : memoInv env st) : memoInv env (pods.foldl (podStep env) st) := by
  induction pods generalizing st with
  | nil => exact h
  | cons p ps ih => exact ih _ (memoInv_podStep env st p h)

/-- Claim C10: within one GetPodModels call, node metrics and node objects
are looked up at most once per distinct node name thanks to the per-call memo
maps, and every view model built in that call for pods of the same node
carries identical node-allocatable cpu and memory values. -/
theorem C10_node_lookups_memoized (env : Env) (peaks : PeakState) :
    (∀ n, (GetPodModels env peaks).callLog.count (ApiCall.nodeMetricsCall n) ≤ 1 ∧
          (GetPodModels env peaks).callLog.count (ApiCall.nodeCall n) ≤ 1) ∧
    (∀ m1 ∈ (GetPodModels env peaks).models, ∀ m2 ∈ (GetPodModels env peaks).models,
      m1.Node = m2.Node →
        m1.NodeAllocatableCpuQty = m2.NodeAllocatableCpuQty ∧
        m1.NodeAllocatableMemQty = m2.NodeAllocatableMemQty) := by
  unfold GetPodModels
  cases hls : GetPodList env with
  | error e => simp
  | ok pods =>
    have h0 : memoInv env
        { models := [], nodeMetricsCache := fun _ => none,
          nodeAllocResMap := fun _ => none, peaks := peaks, callLog := [] } := by
      refine ⟨fun n => ?_, fun n => ?_, fun n a ha => ?_, fun m hm => ?_⟩
      · simp
      · simp
      · exact absurd ha (by simp)
      · exact absurd hm (by simp)
    obtain ⟨g1, g2, g3, g4⟩ := memoInv_foldl env pods _ h0
    constructor
    · intro n
      constructor
      · rw [g2 n]
        split <;> omega
      · rw [g1 n]
        split <;> omega
    · intro m1 hm1 m2 hm2 hnode
      obtain ⟨c1, d1⟩ := g4 m1 hm1
      obtain ⟨c2, d2⟩ := g4 m2 hm2
      rw [c1, c2, d1, d2, hnode]
      exact ⟨rfl, rfl⟩

/-- The updated peak entry at its own key: the maximum of the reported total
and the previous entry, a missing entry counting as the zero initialization. -/
theorem peakUpdate_same (peak : PeakMap) (K : String) (total : Int) :
    peakUpdate peak K total K =
      some (if total > (peak K).getD 0 then total else (peak K).getD 0) := by
  unfold peakUpdate
  cases h : peak K with
  | none => by_cases ht : total > (0 : Int) <;> simp [h, cacheSet, ht]
  | some v => by_cases ht : total > v <;> simp [h, cacheSet, ht]

/-- A peak update leaves every other key unchanged. -/
theorem peakUpdate_other (peak : PeakMap) (K : String) (total : Int) (K2 : String)
    (h : K2 ≠ K) : peakUpdate peak K total K2 = peak K2 := by
  unfold peakUpdate
  cases hp : peak K with
  | none => by_cases ht : total > (0 : Int) <;> simp [hp, cacheSet, ht, h]
  | some v => by_cases ht : total > v <;> simp [hp, cacheSet, ht, h]

/-- Helper: the node-metrics block does not touch the peak maps. -/
theorem ensureNodeMetrics_peaks (env : Env) (st : LoopState) (n : String) :
    (ensureNodeMetrics env st n).peaks = st.peaks := by
  unfold ensureNodeMetrics
  split <;> rfl

/-- Helper: the node-allocatable block does not touch the peak maps. -/
theorem ensureNodeAlloc_peaks (env : Env) (st : LoopState) (n : String) :
    (ensureNodeAlloc env st n).peaks = st.peaks := by
  unfold ensureNodeAlloc
  split <;> rfl

/-- Helper: the peak maps after one loop iteration are exactly the tracked
peaks of the pod of that iteration. -/
theorem podStep_peaks (env : Env) (st : LoopState) (pod : PodM) :
    (podStep env st pod).peaks =
      trackPeaks st.peaks (podKeyOf pod) (effectiveMetrics env pod) := by
  unfold podStep
  simp [ensureNodeAlloc_peaks, ensureNodeMetrics_peaks]

/-- The effect of a sequence of reported totals on one peak entry: each report
initializes a missing entry to zero and then keeps the larger value. -/
def peakFold (o : Option Int) (rs : List Int) : Option Int :=
  rs.foldl (fun acc q => some (if q > acc.getD 0 then q else acc.getD 0)) o

/-- peakFold over an empty report list. -/
theorem peakFold_nil (o : Option Int) : peakFold o [] = o := rfl

/-- peakFold over concatenated report lists. -/
theorem peakFold_append (o : Option Int) (r1 r2 : List Int) :
    peakFold o (r1 ++ r2) = peakFold (peakFold o r1) r2 := by
  unfold peakFold
  rw [List.foldl_append]

/-- Helper: one loop iteration transforms the cpu peak entry of key K by the
report of its pod, when that pod has key K and available metrics. -/
theorem podStep_peakCpu (env : Env) (st : LoopState) (pod : PodM) (K : String) :
    (podStep env st pod).peaks.PeakPodCPU K =
      if podKeyOf pod = K ∧ (effectiveMetrics env pod).Containers ≠ [] then
        some (if (podMetricsTotals (effectiveMetrics env pod)).1 >
                (st.peaks.PeakPodCPU K).getD 0
              then (podMetricsTotals (effectiveMetrics env pod)).1
              else (st.peaks.PeakPodCPU K).getD 0)
      else st.peaks.PeakPodCPU K := by
  rw [podStep_peaks]
  unfold trackPeaks
  by_cases hc : (effectiveMetrics env pod).Containers = []
  · simp [hc]
  · have hc2 : (effectiveMetrics env pod).Containers ≠ [] := hc
    rw [if_pos hc2]
    show peakUpdate st.peaks.PeakPodCPU (podKeyOf pod)
      (podMetricsTotals (effectiveMetrics env pod)).1 K = _
    by_cases hk : podKeyOf pod = K
    · subst hk
      rw [if_pos ⟨rfl, hc2⟩, peakUpdate_same]
    · rw [if_neg (fun hcon => hk hcon.1),
        peakUpdate_other st.peaks.PeakPodCPU (podKeyOf pod)
          (podMetricsTotals (effectiveMetrics env pod)).1 K (fun hcon => hk hcon.symm)]

/-- Helper: one loop iteration transforms the memory peak entry of key K by
the report of its pod, when that pod has key K and available metrics. -/
theorem podStep_peakMem (env : Env) (st : LoopState) (pod : PodM) (K : String) :
    (podStep env st pod).peaks.PeakPodMemory K =
      if podKeyOf pod = K ∧ (effectiveMetrics env pod).Containers ≠ [] then
        some (if (podMetricsTotals (effectiveMetrics env pod)).2 >
                (st.peaks.PeakPodMemory K).getD 0
              then (podMetricsTotals (effectiveMetrics env pod)).2
              else (st.peaks.PeakPodMemory K).getD 0)
      else st.peaks.PeakPodMemory K := by
  rw [podStep_peaks]
  unfold trackPeaks
  by_cases hc : (effectiveMetrics env pod).Containers = []
  · simp [hc]
  · have hc2 : (effectiveMetrics env pod).Containers ≠ [] := hc
    rw [if_pos hc2]
    show peakUpdate st.peaks.PeakPodMemory (podKeyOf pod)
      (podMetricsTotals (effectiveMetrics env pod)).2 K = _
    by_cases hk : podKeyOf pod = K
    · subst hk
      rw [if_pos ⟨rfl, hc2⟩, peakUpdate_same]
    · rw [if_neg (fun hcon => hk hcon.1),
        peakUpdate_other st.peaks.PeakPodMemory (podKeyOf pod)
          (podMetricsTotals (effectiveMetrics env pod)).2 K (fun hcon => hk hcon.symm)]

/-- Helper: the cpu peak entry of key K after the whole pod loop is peakFold
of the reports of the listed pods with key K. -/
theorem foldl_podStep_peakCpu (env : Env) (pods : List PodM) (st : LoopState)
    (K : String) :
    (pods.foldl (podStep env) st).peaks.PeakPodCPU K =
      peakFold (st.peaks.PeakPodCPU K)
        (pods.filterMap fun pod =>
          if podKeyOf pod = K ∧ (effectiveMetrics env pod).Containers ≠ [] then
            some (podMetricsTotals (effectiveMetrics env pod)).1
          else none) := by
  induction pods generalizing st with
  | nil => rfl
  | cons p ps ih =>
    rw [List.foldl_cons, ih, List.filterMap_cons]
    by_cases hp : podKeyOf p = K ∧ (effectiveMetrics env p).Containers ≠ []
    · rw [if_pos hp, podStep_peakCpu env st p K, if_pos hp]
      rfl
    · rw [if_neg hp, podStep_peakCpu env st p K, if_neg hp]

/-- Helper: the memory peak entry of key K after the whole pod loop is
peakFold of the reports of the listed pods with key K. -/
theorem foldl_podStep_peakMem (env : Env) (pods : List PodM) (st : LoopState)
    (K : String) :
    (pods.foldl (podStep env) st).peaks.PeakPodMemory K =
      peakFold (st.peaks.PeakPodMemory K)
        (pods.filterMap fun pod =>
          if podKeyOf pod = K ∧ (effectiveMetrics env pod).Containers ≠ [] then
            some (podMetricsTotals (effectiveMetrics env pod)).2
          else none) := by
  induction pods generalizing st with
  | nil => rfl
  | cons p ps ih =>
    rw [List.foldl_cons, ih, List.filterMap_cons]
    by_cases hp : podKeyOf p = K ∧ (effectiveMetrics env p).Containers ≠ []
    · rw [if_pos hp, podStep_peakMem env st p K, if_pos hp]
      rfl
    · rw [if_neg hp, podStep_peakMem env st p K, if_neg hp]

/-- Helper: one refresh cycle folds its reports for key K into the cpu peak
entry for K. -/
theorem cycle_peakCpu (env : Env) (pk : PeakState) (K : String) :
    (GetPodModels env pk).peaks.PeakPodCPU K =
      peakFold (pk.PeakPodCPU K) (cpuReportsFor K env) := by
  unfold GetPodModels cpuReportsFor
  cases hls : GetPodList env with
  | error e => rfl
  | ok pods => exact foldl_podStep_peakCpu env pods _ K

/-- Helper: one refresh cycle folds its reports for key K into the memory
peak entry for K. -/
theorem cycle_peakMem (env : Env) (pk : PeakState) (K : String) :
    (GetPodModels env pk).peaks.PeakPodMemory K =
      peakFold (pk.PeakPodMemory K) (memReportsFor K env) := by
  unfold GetPodModels memReportsFor
  cases hls : GetPodList env with
  | error e => rfl
  | ok pods => exact foldl_podStep_peakMem env pods _ K

/-- Helper: a sequence of cycles folds the concatenation of the per-cycle
reports for key K into the cpu peak entry. -/
theorem runCycles_peakCpu (envs : List Env) (pk : PeakState) (K : String) :
    (runCycles envs pk).PeakPodCPU K =
      peakFold (pk.PeakPodCPU K) ((envs.map (cpuReportsFor K)).flatten) := by
  induction envs generalizing pk with
  | nil => rfl
  | cons e es ih =>
    show (runCycles es (GetPodModels e pk).peaks).PeakPodCPU K = _
    rw [ih, cycle_peakCpu, List.map_cons, List.flatten_cons, peakFold_append]

/-- Helper: a sequence of cycles folds the concatenation of the per-cycle
reports for key K into the memory peak entry. -/
theorem runCycles_peakMem (envs : List Env) (pk : PeakState) (K : String) :
    (runCycles envs pk).PeakPodMemory K =
      peakFold (pk.PeakPodMemory K) ((envs.map (memReportsFor K)).flatten) := by
  induction envs generalizing pk with
  | nil => rfl
  | cons e es ih =>
    show (runCycles es (GetPodModels e pk).peaks).PeakPodMemory K = _
    rw [ih, cycle_peakMem, List.map_cons, List.flatten_cons, peakFold_append]

/-- Helper: folding reports into a present entry yields the maximum of the
entry and the reports, never below the starting value. -/
theorem peakFold_some_spec (rs : List Int) (v : Int) :
    ∃ m, peakFold (some v) rs = some m ∧ v ≤ m ∧ (m = v ∨ m ∈ rs) ∧
      ∀ q ∈ rs, q ≤ m := by
  induction rs generalizing v with
  | nil => exact ⟨v, rfl, le_refl v, Or.inl rfl, by simp⟩
  | cons r rs ih =>
    have hstep : peakFold (some v) (r :: rs) =
        peakFold (some (if r > v then r else v)) rs := rfl
    obtain ⟨m, hm, hvm, hmem, hall⟩ := ih (if r > v then r else v)
    have hv : v ≤ (if r > v then r else v) := by split <;> omega
    have hr : r ≤ (if r > v then r else v) := by split <;> omega
    refine ⟨m, hstep ▸ hm, le_trans hv hvm, ?_, ?_⟩
    · rcases hmem with hmv | hmr
      · subst hmv
        by_cases hrv : r > v
        · rw [if_pos hrv]
          exact Or.inr (by simp)
        · rw [if_neg hrv]
          exact Or.inl rfl
      · exact Or.inr (List.mem_cons_of_mem r hmr)
    · intro q hq
      rcases List.mem_cons.mp hq with rfl | hq
      · exact le_trans hr hvm
      · exact hall q hq

/-- Helper: folding a non-empty list of non-negative reports into a missing
entry yields the maximum report. -/
theorem peakFold_none_spec (rs : List Int) (h : rs ≠ [])
    (hnn : ∀ q ∈ rs, 0 ≤ q) :
    ∃ m, peakFold none rs = some m ∧ m ∈ rs ∧ ∀ q ∈ rs, q ≤ m := by
  cases rs with
  | nil => exact absurd rfl h
  | cons r rs =>
    have hr : 0 ≤ r := hnn r (by simp)
    have hstep : peakFold none (r :: rs) = peakFold (some r) rs := by
      show peakFold (some (if r > (0 : Int) then r else 0)) rs = _
      by_cases hr0 : r > (0 : Int)
      · rw [if_pos hr0]
      · have : r = 0 := le_antisymm (not_lt.mp hr0) hr
        rw [if_neg hr0, this]
    obtain ⟨m, hm, hvm, hmem, hall⟩ := peakFold_some_spec rs r
    refine ⟨m, hstep ▸ hm, ?_, ?_⟩
    · rcases hmem with hmv | hmr
      · exact hmv ▸ List.mem_cons_self r rs
      · exact List.mem_cons_of_mem r hmr
    · intro q hq
      rcases List.mem_cons.mp hq with rfl | hq
      · exact hvm
      · exact hall q hq

/-- Helper: cpu and memory totals of non-negative container usages are
non-negative. -/
theorem podMetricsTotals_nonneg (pm : PodMetricsM)
    (h : ∀ c ∈ pm.Containers, 0 ≤ c.cpu ∧ 0 ≤ c.mem) :
    0 ≤ (podMetricsTotals pm).1 ∧ 0 ≤ (podMetricsTotals pm).2 := by
  unfold podMetricsTotals
  have main : ∀ (cs : List ContainerMetricsM) (init : Int × Int),
      (∀ c ∈ cs, 0 ≤ c.cpu ∧ 0 ≤ c.mem) → 0 ≤ init.1 → 0 ≤ init.2 →
      0 ≤ (cs.foldl (fun t c => (t.1 + c.cpu, t.2 + c.mem)) init).1 ∧
      0 ≤ (cs.foldl (fun t c => (t.1 + c.cpu, t.2 + c.mem)) init).2 := by
    intro cs
    induction cs with
    | nil => intro init _ h1 h2; exact ⟨h1, h2⟩
    | cons c cs ih =>
      intro init hcs h1 h2
      have hc := hcs c (by simp)
      refine ih (init.1 + c.cpu, init.2 + c.mem) (fun x hx => hcs x (by simp [hx])) ?_ ?_
      · have := hc.1; omega
      · have := hc.2; omega
  exact main pm.Containers (0, 0) h (by omega) (by omega)

/-- Helper: a successful GetPodList returns exactly the cached pods. -/
theorem GetPodList_ok (e : Env) (pods : List PodM) (h : GetPodList e = .ok pods) :
    pods = e.pods := by
  unfold GetPodList at h
  by_cases hc : e.ctxErr = true
  · rw [if_pos hc] at h
    cases h
  · rw [if_neg hc] at h
    by_cases hl : e.listErr = true
    · rw [if_pos hl] at h
      cases h
    · rw [if_neg hl] at h
      injection h with h2
      exact h2.symm

/-- Helper: every cpu report of a cycle with non-negative container usages is
non-negative. -/
theorem cpuReportsFor_nonneg (K : String) (e : Env)
    (hnn : ∀ pod ∈ e.pods, ∀ c ∈ (effectiveMetrics e pod).Containers,
      0 ≤ c.cpu ∧ 0 ≤ c.mem) :
    ∀ q ∈ cpuReportsFor K e, 0 ≤ q := by
  intro q hq
  unfold cpuReportsFor at hq
  cases hls : GetPodList e with
  | error err => rw [hls] at hq; exact absurd hq (by simp)
  | ok pods =>
    rw [hls] at hq
    have hpods : pods = e.pods := GetPodList_ok e pods hls
    obtain ⟨pod, hpod, hf⟩ := List.mem_filterMap.mp hq
    by_cases hcase : podKeyOf pod = K ∧ (effectiveMetrics e pod).Containers ≠ []
    · rw [if_pos hcase] at hf
      injection hf with hf
      rw [← hf]
      exact (podMetricsTotals_nonneg (effectiveMetrics e pod)
        (hnn pod (hpods ▸ hpod))).1
    · rw [if_neg hcase] at hf
      cases hf

/-- Helper: every memory report of a cycle with non-negative container usages
is non-negative. -/
theorem memReportsFor_nonneg (K : String) (e : Env)
    (hnn : ∀ pod ∈ e.pods, ∀ c ∈ (effectiveMetrics e pod).Containers,
      0 ≤ c.cpu ∧ 0 ≤ c.mem) :
    ∀ q ∈ memReportsFor K e, 0 ≤ q := by
  intro q hq
  unfold memReportsFor at hq
  cases hls : GetPodList e with
  | error err => rw [hls] at hq; exact absurd hq (by simp)
  | ok pods =>
    rw [hls] at hq
    have hpods : pods = e.pods := GetPodList_ok e pods hls
    obtain ⟨pod, hpod, hf⟩ := List.mem_filterMap.mp hq
    by_cases hcase : podKeyOf pod = K ∧ (effectiveMetrics e pod).Containers ≠ []
    · rw [if_pos hcase] at hf
      injection hf with hf
      rw [← hf]
      exact (podMetricsTotals_nonneg (effectiveMetrics e pod)
        (hnn pod (hpods ▸ hpod))).2
    · rw [if_neg hcase] at hf
      cases hf

/-- Claim C1: starting from the empty peak maps of newController, after any
finite sequence of refresh cycles the peak entry for pod key K equals the
maximum of the totals reported for K by cycles with available metrics for K
(expressed as: the entry is a reported total and no reported total exceeds
it); when no cycle reported for K the entry is still absent. Moreover a
single cycle never decreases a present entry, and a cycle with no report for
K leaves the entry of K unchanged, for arbitrary current peak maps. -/
theorem C1_peak_running_maximum (envs : List Env) (K : String)
    (hnn : ∀ e ∈ envs, ∀ pod ∈ e.pods, ∀ c ∈ (effectiveMetrics e pod).Containers,
      0 ≤ c.cpu ∧ 0 ≤ c.mem) :
    ((envs.map (cpuReportsFor K)).flatten = [] →
      (runCycles envs initialPeaks).PeakPodCPU K = none) ∧
    ((envs.map (memReportsFor K)).flatten = [] →
      (runCycles envs initialPeaks).PeakPodMemory K = none) ∧
    ((envs.map (cpuReportsFor K)).flatten ≠ [] →
      ∃ m, (runCycles envs initialPeaks).PeakPodCPU K = some m ∧
        m ∈ (envs.map (cpuReportsFor K)).flatten ∧
        ∀ q ∈ (envs.map (cpuReportsFor K)).flatten, q ≤ m) ∧
    ((envs.map (memReportsFor K)).flatten ≠ [] →
      ∃ m, (runCycles envs initialPeaks).PeakPodMemory K = some m ∧
        m ∈ (envs.map (memReportsFor K)).flatten ∧
        ∀ q ∈ (envs.map (memReportsFor K)).flatten, q ≤ m) ∧
    (∀ e pk v, pk.PeakPodCPU K = some v →
      ∃ w, (GetPodModels e pk).peaks.PeakPodCPU K = some w ∧ v ≤ w) ∧
    (∀ e pk v, pk.PeakPodMemory K = some v →
      ∃ w, (GetPodModels e pk).peaks.PeakPodMemory K = some w ∧ v ≤ w) ∧
    (∀ e pk, cpuReportsFor K e = [] →
      (GetPodModels e pk).peaks.PeakPodCPU K = pk.PeakPodCPU K) ∧
    (∀ e pk, memReportsFor K e = [] →
      (GetPodModels e pk).peaks.PeakPodMemory K = pk.PeakPodMemory K) := by
  have hjoinCpu : ∀ q ∈ (envs.map (cpuReportsFor K)).flatten, 0 ≤ q := by
    intro q hq
    obtain ⟨l, hl, hql⟩ := List.mem_flatten.mp hq
    obtain ⟨e, he, hle⟩ := List.mem_map.mp hl
    exact cpuReportsFor_nonneg K e (hnn e he) q (hle ▸ hql)
  have hjoinMem : ∀ q ∈ (envs.map (memReportsFor K)).flatten, 0 ≤ q := by
    intro q hq
    obtain ⟨l, hl, hql⟩ := List.mem_flatten.mp hq
    obtain ⟨e, he, hle⟩ := List.mem_map.mp hl
    exact memReportsFor_nonneg K e (hnn e he) q (hle ▸ hql)
  refine ⟨?_, ?_, ?_, ?_, ?_, ?_, ?_, ?_⟩
  · intro h
    rw [runCycles_peakCpu, h, peakFold_nil]
    rfl
  · intro h
    rw [runCycles_peakMem, h, peakFold_nil]
    rfl
  · intro h
    rw [runCycles_peakCpu]
    exact peakFold_none_spec _ h hjoinCpu
  · intro h
    rw [runCycles_peakMem]
    exact peakFold_none_spec _ h hjoinMem
  · intro e pk v hv
    rw [cycle_peakCpu, hv]
    obtain ⟨m, hm, hvm, _, _⟩ := peakFold_some_spec (cpuReportsFor K e) v
    exact ⟨m, hm, hvm⟩
  · intro e pk v hv
    rw [cycle_peakMem, hv]
    obtain ⟨m, hm, hvm, _, _⟩ := peakFold_some_spec (memReportsFor K e) v
    exact ⟨m, hm, hvm⟩
  · intro e pk h
    rw [cycle_peakCpu, h, peakFold_nil]
  · intro e pk h
    rw [cycle_peakMem, h, peakFold_nil]

/-- A pod with key ns/z used by the peak witness. -/
def podPeak : PodM := { basePodM with Name := "z" }

/-- First witness cycle: two containers totalling cpu 100 and memory 30. -/
def envPeakA : Env :=
  { ctxErr := false, ctxDeadlineExceeded := false, listErr := false
    pods := [podPeak]
    podMetricsOf := fun _ =>
      .ok { Containers := [{ cpu := 60, mem := 10 }, { cpu := 40, mem := 20 }] }
    nodeMetricsOf := fun _ => .ok { cpu := 0, mem := 0 }
    nodeOf := fun _ => .ok { Allocatable := { cpu := some 1, mem := some 1 } }
    timeSinceOf := fun _ => "" }

/-- Second witness cycle: lower usage, cpu 50 and memory 5. -/
def envPeakB : Env :=
  { envPeakA with
    podMetricsOf := fun _ => .ok { Containers := [{ cpu := 50, mem := 5 }] } }

/-- Witness for claim C1 at two concrete cycles reporting cpu totals 100 then
50 for key ns/z: a key never reported keeps no entry, and the stored peak is
100, the maximum, not the later lower reading. -/
theorem C1_peak_running_maximum_witness :
    (runCycles [envPeakA, envPeakB] initialPeaks).PeakPodCPU "ns/ghost" = none ∧
    (runCycles [envPeakA, envPeakB] initialPeaks).PeakPodCPU "ns/z" = some 100 := by
  constructor
  · exact (C1_peak_running_maximum [envPeakA, envPeakB] "ns/ghost" (by decide)).1 (by decide)
  · obtain ⟨m, hm, hmem, hall⟩ :=
      (C1_peak_running_maximum [envPeakA, envPeakB] "ns/z" (by decide)).2.2.1 (by decide)
    have hj : (([envPeakA, envPeakB].map (cpuReportsFor "ns/z")).flatten) = [100, 50] := by
      decide
    rw [hj] at hmem hall
    have h100 : (100 : Int) ≤ m := hall 100 (by simp)
    have hm2 : m = 100 ∨ m = 50 := by simpa using hmem
    rcases hm2 with rfl | rfl
    · exact hm
    · omega

/-- A cycle with two pods sharing node n1, used by the memoization witness. -/
def envC10 : Env :=
  { ctxErr := false, ctxDeadlineExceeded := false, listErr := false
    pods := [{ basePodM with Name := "w1" }, { basePodM with Name := "w2" }]
    podMetricsOf := fun _ => .ok { Containers := [{ cpu := 5, mem := 6 }] }
    nodeMetricsOf := fun _ => .ok { cpu := 70, mem := 80 }
    nodeOf := fun _ => .ok { Allocatable := { cpu := some 4000, mem := some 8000 } }
    timeSinceOf := fun _ => "3m" }

/-- The view model the witness cycle builds for pod w1. -/
def mW1 : PodModel :=
  { basePodModel with
    Namespace := "ns", Name := "w1", Node := "n1", TimeSince := "3m"
    PodRequestedCpuQty := some 0, PodRequestedMemQty := some 0
    PodLimitCpuQty := some 0, PodLimitMemQty := some 0
    PodUsageCpuQty := some 5, PodUsageMemQty := some 6
    NodeAllocatableCpuQty := some 4000, NodeAllocatableMemQty := some 8000
    NodeUsageCpuQty := some 70, NodeUsageMemQty := some 80 }

/-- The view model the witness cycle builds for pod w2. -/
def mW2 : PodModel := { mW1 with Name := "w2" }

/-- Witness for claim C10 at the concrete two-pod cycle: the node is looked up
at most once, and the two models of node n1 carry identical allocatable
values. -/
theorem C10_node_lookups_memoized_witness :
    (GetPodModels envC10 initialPeaks).callLog.count (ApiCall.nodeCall "n1") ≤ 1 ∧
    (mW1.NodeAllocatableCpuQty = mW2.NodeAllocatableCpuQty ∧
      mW1.NodeAllocatableMemQty = mW2.NodeAllocatableMemQty) :=
  ⟨((C10_node_lookups_memoized envC10 initialPeaks).1 "n1").2,
   (C10_node_lookups_memoized envC10 initialPeaks).2 mW1 (by decide) mW2 (by decide) rfl⟩

/-- Helper for claim C4: wrap64 is the identity inside the int64 range. -/
theorem wrap64_eq_self (n : Int) (h1 : -(2 ^ 63) ≤ n) (h2 : n < 2 ^ 63) :
    wrap64 n = n := by
  unfold wrap64
  have h3 : 0 ≤ n + 2 ^ 63 := by omega
  have h4 : n + 2 ^ 63 < 2 ^ 64 := by omega
  rw [Int.emod_eq_of_lt h3 h4]
  omega

/-- Helper for claim C4: swapping the arguments of listCompare negates it. -/
theorem listCompare_swap (l1 l2 : List Char) :
    listCompare l2 l1 = -(listCompare l1 l2) := by
  induction l1 generalizing l2 with
  | nil => cases l2 <;> simp [listCompare]
  | cons a as ih =>
    cases l2 with
    | nil => simp [listCompare]
    | cons b bs =>
      unfold listCompare
      rcases lt_trichotomy a b with h | h | h
      · rw [if_pos h, if_neg (lt_asymm h), if_pos h]
        norm_num
      · subst h
        simp [lt_irrefl, ih bs]
      · rw [if_pos h, if_neg (lt_asymm h), if_pos h]

/-- Helper for claim C4: listCompare vanishes exactly on equal lists. -/
theorem listCompare_eq_zero_iff (l1 l2 : List Char) :
    listCompare l1 l2 = 0 ↔ l1 = l2 := by
  induction l1 generalizing l2 with
  | nil => cases l2 <;> simp [listCompare]
  | cons a as ih =>
    cases l2 with
    | nil => simp [listCompare]
    | cons b bs =>
      unfold listCompare
      rcases lt_trichotomy a b with h | h | h
      · rw [if_pos h]
        simp [ne_of_lt h]
      · subst h
        simp [lt_irrefl, ih]
      · rw [if_neg (lt_asymm h), if_pos h]
        simp [(ne_of_lt h).symm]

/-- Helper for claim C4: listCompare only takes the three values -1, 0, 1. -/
theorem listCompare_trichotomy (l1 l2 : List Char) :
    listCompare l1 l2 = -1 ∨ listCompare l1 l2 = 0 ∨ listCompare l1 l2 = 1 := by
  induction l1 generalizing l2 with
  | nil => cases l2 <;> simp [listCompare]
  | cons a as ih =>
    cases l2 with
    | nil => simp [listCompare]
    | cons b bs =>
      unfold listCompare
      rcases lt_trichotomy a b with h | h | h
      · rw [if_pos h]
        simp
      · subst h
        simpa [lt_irrefl] using ih bs
      · rw [if_neg (lt_asymm h), if_pos h]
        simp

/-- Helper for claim C4: strCompare on distinct strings is a strict sign
pair. -/
theorem strCompare_total (a b : String) (h : a ≠ b) :
    (strCompare a b = -1 ∧ strCompare b a = 1) ∨
    (strCompare a b = 1 ∧ strCompare b a = -1) := by
  unfold strCompare
  have hd : a.data ≠ b.data := by
    intro hcon
    refine h ?_
    cases a
    cases b
    simp_all
  have hz : listCompare a.data b.data ≠ 0 :=
    fun hcon => hd ((listCompare_eq_zero_iff _ _).mp hcon)
  have hswap := listCompare_swap a.data b.data
  rcases listCompare_trichotomy a.data b.data with h1 | h1 | h1
  · left
    refine ⟨h1, ?_⟩
    rw [hswap, h1]
    norm_num
  · exact absurd h1 hz
  · right
    refine ⟨h1, ?_⟩
    rw [hswap, h1]

/-- Helper for claim C4: the name tie-break decides strictly one way between
distinct names, for either direction. -/
theorem dirName_total (direction : Int) (hdir : direction = 1 ∨ direction = -1)
    (a b : String) (h : a ≠ b) :
    decide (direction * strCompare a b < 0) = true ∨
    decide (direction * strCompare b a < 0) = true := by
  rcases hdir with rfl | rfl <;>
    rcases strCompare_total a b h with ⟨h1, h2⟩ | ⟨h1, h2⟩ <;>
      rw [h1, h2] <;> decide

/-- Helper for claim C4: a string-primary comparison with name tie-break is
total on pods with distinct names. -/
theorem strPrimary_total (direction : Int) (hdir : direction = 1 ∨ direction = -1)
    (x y na nb : String) (hn : na ≠ nb) :
    (if x ≠ y then decide (direction * strCompare x y < 0)
     else decide (direction * strCompare na nb < 0)) = true ∨
    (if y ≠ x then decide (direction * strCompare y x < 0)
     else decide (direction * strCompare nb na < 0)) = true := by
  by_cases hxy : x = y
  · subst hxy
    rw [if_neg (by simp), if_neg (by simp)]
    exact dirName_total direction hdir na nb hn
  · rw [if_pos hxy, if_pos (Ne.symm hxy)]
    exact dirName_total direction hdir x y hxy

/-- The value bound under which the comparator arithmetic cannot wrap. -/
@[reducible]
def inRange61 (n : Int) : Prop := -(2 ^ 61) ≤ n ∧ n ≤ 2 ^ 61

/-- A pod model whose integer comparison inputs are inside the no-wrap
range. -/
@[reducible]
def podBounded (p : PodModel) : Prop :=
  inRange61 p.Restarts ∧ inRange61 p.Volumes ∧
  inRange61 (milliValue (p.PodUsageCpuQty.getD 0)) ∧
  inRange61 (p.PodUsageMemQty.getD 0)

/-- Helper for claim C4: an integer-primary comparison with name tie-break is
total on bounded values and distinct names. -/
theorem intPrimary_total (direction : Int) (hdir : direction = 1 ∨ direction = -1)
    (x y : Int) (hx : inRange61 x) (hy : inRange61 y) (na nb : String)
    (hn : na ≠ nb) :
    (if x ≠ y then decide (wrap64 (direction * wrap64 (x - y)) < 0)
     else decide (direction * strCompare na nb < 0)) = true ∨
    (if y ≠ x then decide (wrap64 (direction * wrap64 (y - x)) < 0)
     else decide (direction * strCompare nb na < 0)) = true := by
  obtain ⟨hx1, hx2⟩ := hx
  obtain ⟨hy1, hy2⟩ := hy
  by_cases hxy : x = y
  · subst hxy
    rw [if_neg (by simp), if_neg (by simp)]
    exact dirName_total direction hdir na nb hn
  · rw [if_pos hxy, if_pos (Ne.symm hxy)]
    have hd1 : wrap64 (x - y) = x - y := wrap64_eq_self _ (by omega) (by omega)
    have hd2 : wrap64 (y - x) = y - x := wrap64_eq_self _ (by omega) (by omega)
    rw [hd1, hd2]
    have hw1 : wrap64 (direction * (x - y)) = direction * (x - y) :=
      wrap64_eq_self _ (by rcases hdir with rfl | rfl <;> omega)
        (by rcases hdir with rfl | rfl <;> omega)
    have hw2 : wrap64 (direction * (y - x)) = direction * (y - x) :=
      wrap64_eq_self _ (by rcases hdir with rfl | rfl <;> omega)
        (by rcases hdir with rfl | rfl <;> omega)
    rw [hw1, hw2]
    simp only [decide_eq_true_eq]
    rcases hdir with rfl | rfl <;> omega

/-- Helper for claim C4: a plain strCompare comparison decides strictly one
way between distinct strings. -/
theorem strLt_total (a b : String) (h : a ≠ b) :
    decide (strCompare a b < 0) = true ∨ decide (strCompare b a < 0) = true := by
  rcases strCompare_total a b h with ⟨h1, h2⟩ | ⟨h1, h2⟩
  · left
    rw [h1]
    decide
  · right
    rw [h2]
    decide

/-- Helper for claim C4: the default branch (plain namespace and name
comparison) is total on pods with distinct names. -/
theorem defaultBranch_total (nsa nsb na nb : String) (hn : na ≠ nb) :
    (if nsa ≠ nsb then decide (strCompare nsa nsb < 0)
     else decide (strCompare na nb < 0)) = true ∨
    (if nsb ≠ nsa then decide (strCompare nsb nsa < 0)
     else decide (strCompare nb na < 0)) = true := by
  by_cases hns : nsa = nsb
  · subst hns
    rw [if_neg (by simp), if_neg (by simp)]
    exact strLt_total na nb hn
  · rw [if_pos hns, if_pos (Ne.symm hns)]
    exact strLt_total nsa nsb hns

/-- Helper for claim C4: on bounded pod models with distinct names, the
comparator always orders one of the two pods strictly before the other, for
every embedded sort field and either direction. -/
theorem podLess_total (f : SortField) (direction : Int)
    (hdir : direction = 1 ∨ direction = -1) (a b : PodModel)
    (ha : podBounded a) (hb : podBounded b) (hn : a.Name ≠ b.Name) :
    podLess f direction a b = true ∨ podLess f direction b a = true := by
  cases f with
  | NAMESPACE =>
    unfold podLess
    exact strPrimary_total direction hdir a.Namespace b.Namespace a.Name b.Name hn
  | POD =>
    unfold podLess
    exact dirName_total direction hdir a.Name b.Name hn
  | STATUS =>
    unfold podLess
    exact strPrimary_total direction hdir a.Status b.Status a.Name b.Name hn
  | NODE =>
    unfold podLess
    exact strPrimary_total direction hdir a.Node b.Node a.Name b.Name hn
  | RESTARTS =>
    unfold podLess
    exact intPrimary_total direction hdir a.Restarts b.Restarts ha.1 hb.1
      a.Name b.Name hn
  | CPU =>
    unfold podLess
    cases hqa : a.PodUsageCpuQty with
    | none =>
      cases hqb : b.PodUsageCpuQty with
      | none => exact dirName_total direction hdir a.Name b.Name hn
      | some qb => rcases hdir with rfl | rfl <;> [exact Or.inl rfl;
          exact Or.inr rfl]
    | some qa =>
      cases hqb : b.PodUsageCpuQty with
      | none => rcases hdir with rfl | rfl <;> [exact Or.inr rfl;
          exact Or.inl rfl]
      | some qb =>
        have hba : inRange61 (milliValue qa) := by
          have := ha.2.2.1
          rwa [hqa] at this
        have hbb : inRange61 (milliValue qb) := by
          have := hb.2.2.1
          rwa [hqb] at this
        exact intPrimary_total direction hdir (milliValue qa) (milliValue qb)
          hba hbb a.Name b.Name hn
  | MEMORY =>
    unfold podLess
    cases hqa : a.PodUsageMemQty with
    | none =>
      cases hqb : b.PodUsageMemQty with
      | none => exact dirName_total direction hdir a.Name b.Name hn
      | some qb => rcases hdir with rfl | rfl <;> [exact Or.inl rfl;
          exact Or.inr rfl]
    | some qa =>
      cases hqb : b.PodUsageMemQty with
      | none => rcases hdir with rfl | rfl <;> [exact Or.inr rfl;
          exact Or.inl rfl]
      | some qb =>
        have hba : inRange61 qa := by
          have := ha.2.2.2
          rwa [hqa] at this
        have hbb : inRange61 qb := by
          have := hb.2.2.2
          rwa [hqb] at this
        exact intPrimary_total direction hdir qa qb hba hbb a.Name b.Name hn
  | IP =>
    unfold podLess
    exact strPrimary_total direction hdir a.IP b.IP a.Name b.Name hn
  | VOLS =>
    unfold podLess
    exact intPrimary_total direction hdir a.Volumes b.Volumes ha.2.1 hb.2.1
      a.Name b.Name hn
  | OTHER s =>
    unfold podLess
    exact defaultBranch_total a.Namespace b.Namespace a.Name b.Name hn

/-- Helper for claim C4: two sorted permutations of the same list coincide
when the sort relation is antisymmetric on the members. -/
theorem sorted_perm_unique {α : Type} {r : α → α → Prop} :
    ∀ (l1 l2 : List α), l1.Perm l2 → l1.Pairwise r → l2.Pairwise r →
      (∀ a ∈ l1, ∀ b ∈ l1, r a b → r b a → a = b) → l1 = l2 := by
  intro l1
  induction l1 with
  | nil =>
    intro l2 hp _ _ _
    exact hp.nil_eq
  | cons a t1 ih =>
    intro l2 hp hs1 hs2 hanti
    cases l2 with
    | nil => exact absurd hp.symm.nil_eq (by simp)
    | cons b t2 =>
      have hab : a = b := by
        have hbl1 : b ∈ a :: t1 := hp.mem_iff.mpr (by simp)
        have hal2 : a ∈ b :: t2 := hp.mem_iff.mp (by simp)
        rcases List.mem_cons.mp hbl1 with hba | hbt1
        · exact hba.symm
        · rcases List.mem_cons.mp hal2 with hab2 | hat2
          · exact hab2
          · have hr1 : r a b := (List.pairwise_cons.mp hs1).1 b hbt1
            have hr2 : r b a := (List.pairwise_cons.mp hs2).1 a hat2
            exact hanti a (by simp) b (by simp [hbt1]) hr1 hr2
      subst hab
      have hp2 : t1.Perm t2 := (List.perm_cons a).mp hp
      have hres := ih t2 hp2 (List.pairwise_cons.mp hs1).2 (List.pairwise_cons.mp hs2).2
        (fun x hx y hy hxy hyx => hanti x (by simp [hx]) y (by simp [hy]) hxy hyx)
      rw [hres]

/-- Claim C4 as amended: for every embedded sort field and either direction,
on a collection whose pod names are pairwise distinct and whose integer
comparison inputs do not overflow 64-bit arithmetic, ties on the primary
field are broken by the pod name and the comparator orders any two pods
strictly one way, so any two comparator-sorted permutations of the
collection are identical: sorting the same collection twice by the same
field and direction yields one and the same order. -/
theorem C4_deterministic_order (f : SortField) (direction : Int)
    (hdir : direction = 1 ∨ direction = -1) (l l1 l2 : List PodModel)
    (hbound : ∀ p ∈ l, podBounded p)
    (hnames : l.Pairwise fun p q => p.Name ≠ q.Name)
    (hp1 : l1.Perm l) (hp2 : l2.Perm l)
    (hs1 : sortedBy f direction l1) (hs2 : sortedBy f direction l2) :
    l1 = l2 := by
  unfold sortedBy at hs1 hs2
  apply sorted_perm_unique l1 l2 (hp1.trans hp2.symm) hs1 hs2
  intro a haM b hbM hr1 hr2
  by_contra hne
  have haL : a ∈ l := hp1.subset haM
  have hbL : b ∈ l := hp1.subset hbM
  have hnab : a.Name ≠ b.Name :=
    List.Pairwise.forall (fun _ _ h => h.symm) hnames haL hbL hne
  rcases podLess_total f direction hdir a b (hbound a haL) (hbound b hbL) hnab
    with h | h
  · rw [h] at hr2
    cases hr2
  · rw [h] at hr1
    cases hr1

/-- A pod in namespace a named x, with no other data. -/
def pDupA : PodModel := { basePodModel with Namespace := "a", Name := "x" }

/-- A different pod, in namespace b, with the same name x. -/
def pDupB : PodModel := { basePodModel with Namespace := "b", Name := "x" }

/-- A pod whose restart count is the large negative value -(2 to the 62). -/
def pWrapA : PodModel := { basePodModel with Name := "r1", Restarts := -(2 ^ 62) }

/-- A pod whose restart count is the large positive value 2 to the 62. -/
def pWrapB : PodModel := { basePodModel with Name := "r2", Restarts := 2 ^ 62 }

/-- Counterexample to claim C4 as stated: two distinct pods that share a name
tie under the POD field without any further tie-break, so both orders of the
two-element collection are comparator-sorted and the sorted order is not
unique; and under the RESTARTS field 64-bit wrap-around makes the comparator
claim each of two pods strictly before the other, so it is not a total
order. -/
theorem C4_counterexample :
    (pDupA ≠ pDupB ∧
      podLess SortField.POD 1 pDupA pDupB = false ∧
      podLess SortField.POD 1 pDupB pDupA = false ∧
      sortedBy SortField.POD 1 [pDupA, pDupB] ∧
      sortedBy SortField.POD 1 [pDupB, pDupA] ∧
      List.Perm [pDupB, pDupA] [pDupA, pDupB] ∧
      [pDupA, pDupB] ≠ [pDupB, pDupA]) ∧
    (podLess SortField.RESTARTS 1 pWrapA pWrapB = true ∧
      podLess SortField.RESTARTS 1 pWrapB pWrapA = true) := by
  unfold sortedBy
  decide

/-- A bounded pod model named s1. -/
def pSortA : PodModel := { basePodModel with Namespace := "a", Name := "s1" }

/-- A bounded pod model named s2 with a present cpu usage quantity. -/
def pSortB : PodModel :=
  { basePodModel with
    Namespace := "a", Name := "s2", PodUsageCpuQty := some 3, PodUsageMemQty := some 4 }

/-- Witness for claim C4 as amended, at a concrete two-pod collection with
distinct names and bounded values under the CPU field: the sorted order is
unique. -/
theorem C4_deterministic_order_witness :
    ([pSortA, pSortB] : List PodModel) = [pSortA, pSortB] :=
  C4_deterministic_order SortField.CPU 1 (Or.inl rfl) [pSortB, pSortA]
    [pSortA, pSortB] [pSortA, pSortB] (by decide) (by decide) (by decide)
    (by decide) (by unfold sortedBy; decide) (by unfold sortedBy; decide)

end Ktop
